import Mathlib

/-!
Verification of the GAME CpG-predictor request pipeline.

This file is a shallow embedding of the repository's Python sources:

* `src/error_checking_functions.py` — error classes and the accumulating
  validation checks;
* `src/schema_validation.py` — `validate_request_payload` and
  `preprocess_data`;
* `src/cpg_utils.py` — `predict_cpg`, `cpg_mean`, `calculate_cpg_per_base`;
* `src/predictor_content_handler.py` — `decode_request`, `encode_response`.

Modelling conventions:

* Python values that flow through the untyped payload are modelled by the
  inductive `PVal` (strings, ints, bools, None, lists).  Floats and dicts
  never appear in any behaviour the claims exercise and are not modelled.
* A payload is a record of optional fields; a field is `some v` exactly when
  the corresponding key is present in the JSON object.  `sequences` values
  are modelled as strings and `prediction_tasks` as a list of task records,
  matching the shapes every modelled code path consumes.
* Python exceptions are explicit: `Except` results carry either a raised
  `APIErrorS` (the repository's error taxonomy) or a runtime error string
  standing for an uncaught Python exception (TypeError, IndexError,
  KeyError, ValueError, ZeroDivisionError, UnboundLocalError).
* Python float arithmetic is modelled over `ℝ` with the literal `1e-9` as
  the exact rational `1/1000000000`; rounding of IEEE doubles is not
  modelled, matching the specification's real-number reading.
-/

namespace CpG

/-- Python runtime values appearing in a decoded request payload. -/
inductive PVal where
  | pstr (s : String)
  | pint (n : Int)
  | pbool (b : Bool)
  | pnone
  | plist (xs : List PVal)

/-- Python truthiness (`if value:`) for the modelled value forms. -/
def PVal.truthy : PVal → Bool
  | .pstr s => s ≠ ""
  | .pint n => n ≠ 0
  | .pbool b => b
  | .pnone => false
  | .plist xs => !xs.isEmpty

/-- Python `type(x) == list` (and also `isinstance(x, list)`). -/
def PVal.isList : PVal → Bool
  | .plist _ => true
  | _ => false

/-- Python `isinstance(x, str)`. -/
def PVal.isStr : PVal → Bool
  | .pstr _ => true
  | _ => false

/-- Python `isinstance(x, int)`; note `bool` is a subclass of `int`. -/
def PVal.isIntLike : PVal → Bool
  | .pint _ => true
  | .pbool _ => true
  | _ => false

/-- Numeric view of a value: Python treats bools as the ints 0 and 1. -/
def PVal.toNum : PVal → Option Int
  | .pint n => some n
  | .pbool b => some (if b then 1 else 0)
  | _ => none

/-- Python `x == "lit"` membership test against a list of string literals;
comparison with a non-string value is simply `False`, it never raises. -/
def PVal.eqStr : PVal → String → Bool
  | .pstr a, s => a = s
  | _, _ => false

def pvalInStrs (v : PVal) (opts : List String) : Bool :=
  opts.any (fun s => v.eqStr s)

mutual

/-- Python `repr` of a value, as used when a list is interpolated into an
f-string.  String escaping inside `repr` is not modelled (no claim reaches
it); `\x27` is the single-quote character. -/
def pyRepr : PVal → String
  | .pstr s => "\x27" ++ s ++ "\x27"
  | .pint n => toString n
  | .pbool b => if b then "True" else "False"
  | .pnone => "None"
  | .plist xs => "[" ++ String.intercalate ", " (pyReprList xs) ++ "]"

def pyReprList : List PVal → List String
  | [] => []
  | x :: xs => pyRepr x :: pyReprList xs

end

/-- Python `str(x)` / f-string interpolation of a value. -/
def pyStr : PVal → String
  | .pstr s => s
  | .pint n => toString n
  | .pbool b => if b then "True" else "False"
  | .pnone => "None"
  | .plist xs => "[" ++ String.intercalate ", " (pyReprList xs) ++ "]"

/-- Python `len(x)`: defined for strings and lists, a TypeError otherwise. -/
def pyLen : PVal → Except String Nat
  | .pstr s => .ok s.length
  | .plist xs => .ok xs.length
  | _ => .error "TypeError: object has no len()"

/-- Python iteration over a value (already known to be sized): a list yields
its elements, a string its one-character substrings. -/
def pyElems : PVal → Except String (List PVal)
  | .plist xs => .ok xs
  | .pstr s => .ok (s.data.map (fun c => .pstr (String.mk [c])))
  | _ => .error "TypeError: object is not iterable"

/-- Python `x[i]` for a non-negative literal index. -/
def pyIndex : PVal → Nat → Except String PVal
  | .plist xs, i =>
    match xs[i]? with
    | some v => .ok v
    | none => .error "IndexError: list index out of range"
  | .pstr s, i =>
    match s.data[i]? with
    | some c => .ok (.pstr (String.mk [c]))
    | none => .error "IndexError: string index out of range"
  | _, _ => .error "TypeError: object is not subscriptable"

/-- Python `a < b`: numeric values compare as ints, strings compare
lexicographically, any other mix raises a TypeError. -/
def pyLtVal (a b : PVal) : Except String Bool :=
  match a.toNum, b.toNum with
  | some x, some y => .ok (x < y)
  | _, _ =>
    match a, b with
    | .pstr x, .pstr y => .ok (x < y)
    | _, _ => .error "TypeError: unsupported comparison"

/-- Python `a > b`, with the same typing rules as `pyLtVal`. -/
def pyGtVal (a b : PVal) : Except String Bool :=
  match a.toNum, b.toNum with
  | some x, some y => .ok (x > y)
  | _, _ =>
    match a, b with
    | .pstr x, .pstr y => .ok (x > y)
    | _, _ => .error "TypeError: unsupported comparison"

/-- Python `a >= b`, with the same typing rules as `pyLtVal`. -/
def pyGeVal (a b : PVal) : Except String Bool :=
  match a.toNum, b.toNum with
  | some x, some y => .ok (x ≥ y)
  | _, _ =>
    match a, b with
    | .pstr x, .pstr y => .ok (x ≥ y)
    | _, _ => .error "TypeError: unsupported comparison"

/-- Python `sorted` on strings (ascending lexicographic order). -/
def insertSorted (x : String) : List String → List String
  | [] => [x]
  | y :: ys => if x < y then x :: y :: ys else y :: insertSorted x ys

def pySorted : List String → List String
  | [] => []
  | x :: xs => insertSorted x (pySorted xs)

/-- Python `str.lower` (the headers handled here are ASCII). -/
def pyLower (s : String) : String := String.mk (s.data.map Char.toLower)

/-- Python `str.upper` (the sequences handled here are ASCII). -/
def pyUpper (s : String) : String := String.mk (s.data.map Char.toUpper)

/-! ## Error taxonomy (`error_checking_functions.py`, classes `APIError`,
`BadRequestError`, `PredictionFailedError`, `ServerError`) -/

/-- A raised error's `message` argument: the repository raises its errors
either with a single string or with a list of accumulated messages. -/
inductive PyMsg where
  | ofStr (s : String)
  | ofList (ms : List String)

/-- The `APIError` base class: a message, an HTTP status code and the
machine-readable error key. -/
structure APIErrorS where
  message : PyMsg
  status_code : Nat
  error_key : String

/-- Construction of `BadRequestError(message)`. -/
def BadRequestError (m : PyMsg) : APIErrorS :=
  { message := m, status_code := 400, error_key := "bad_prediction_request" }

/-- Construction of `PredictionFailedError(message)`. -/
def PredictionFailedError (m : PyMsg) : APIErrorS :=
  { message := m, status_code := 422, error_key := "prediction_request_failed" }

/-- Construction of `ServerError(message)`. -/
def ServerError (m : PyMsg) : APIErrorS :=
  { message := m, status_code := 500, error_key := "server_error" }

/-- An exception escaping a pipeline stage: either one of the repository's
`APIError`s, or an uncaught Python runtime exception (TypeError, KeyError,
IndexError, ValueError, …) described by a string. -/
inductive PyExc where
  | api (e : APIErrorS)
  | runtime (msg : String)

/-- Embeds a computation that can only raise runtime exceptions into one
whose exceptions are classified. -/
def liftRT : Except String α → Except PyExc α
  | .ok a => .ok a
  | .error e => .error (.runtime e)

/-! ## Request data model

A decoded payload is a JSON object; each modelled field is `some v` exactly
when the key is present.  Keys other than the six below are never inspected
by any modelled function.  `sequences` maps ids to strings and
`prediction_tasks` is a list of task objects, the shapes every modelled
code path consumes. -/

/-- One element of `prediction_tasks`: a JSON object with four mandatory
keys and the optional `scale`. -/
structure Task where
  name : Option PVal
  type : Option PVal
  cell_type : Option PVal
  species : Option PVal
  scale : Option PVal

/-- Keys present in a task object (order irrelevant: only membership is
ever tested). -/
def Task.keys (t : Task) : List String :=
  (if t.name.isSome then ["name"] else []) ++
  (if t.type.isSome then ["type"] else []) ++
  (if t.cell_type.isSome then ["cell_type"] else []) ++
  (if t.species.isSome then ["species"] else []) ++
  (if t.scale.isSome then ["scale"] else [])

/-- The request payload. -/
structure Payload where
  readout : Option PVal
  prediction_tasks : Option (List Task)
  sequences : Option (List (String × String))
  prediction_ranges : Option (List (String × PVal))
  upstream_seq : Option PVal
  downstream_seq : Option PVal

/-- The top-level keys present in the payload, as seen by
`payload.keys()`.  Unmodelled extra keys cannot influence any check. -/
def Payload.keys (p : Payload) : List String :=
  (if p.readout.isSome then ["readout"] else []) ++
  (if p.prediction_tasks.isSome then ["prediction_tasks"] else []) ++
  (if p.sequences.isSome then ["sequences"] else []) ++
  (if p.prediction_ranges.isSome then ["prediction_ranges"] else []) ++
  (if p.upstream_seq.isSome then ["upstream_seq"] else []) ++
  (if p.downstream_seq.isSome then ["downstream_seq"] else [])

/-! ## Error checking functions (`error_checking_functions.py`)

Each check threads the single message list stored under the accumulator's
one key (`bad_prediction_request` during validation,
`prediction_request_failed` during preprocessing); `any(errors.values())`
is exactly nonemptiness of that list.  The message texts are transcribed
verbatim; `\x27` is the single-quote character. -/

/-- Valid bases accepted by `check_seqs_specifications`. -/
def valid_bases : List Char := ['A', 'T', 'C', 'G', 'N']

def insertSortedChar (x : Char) : List Char → List Char
  | [] => [x]
  | y :: ys => if x ≤ y then x :: y :: ys else y :: insertSortedChar x ys

def sortChars : List Char → List Char
  | [] => []
  | x :: xs => insertSortedChar x (sortChars xs)

/-- The distinct invalid characters of a sequence, `set(seq.upper()) -
valid_bases`.  Python renders a `set` in hash order; the rendering is
determinised here by sorting (no claim depends on the order inside the
braces of this message). -/
def invalidCharsOf (seq : String) : List Char :=
  sortChars (((pyUpper seq).data.filter (fun c => !valid_bases.contains c)).dedup)

/-- Python `repr` of a set of one-character strings, e.g. `{'X', 'Y'}`. -/
def renderCharSet (cs : List Char) : String :=
  "\x7b" ++ String.intercalate ", " (cs.map (fun c => "\x27" ++ String.mk [c] ++ "\x27")) ++ "\x7d"

def msg_seq_empty (seq_id : String) : String :=
  "sequence \x27" ++ seq_id ++ "\x27 is empty"

def msg_seq_invalid (seq_id : String) (cs : List Char) : String :=
  "sequence \x27" ++ seq_id ++ "\x27 has invalid character(s): " ++ renderCharSet cs

/-- Embedding of `check_seqs_specifications`. -/
def check_seqs_specifications (sequences : List (String × String)) (acc : List String) : List String :=
  match sequences with
  | [] => acc
  | (seq_id, seq) :: rest =>
    let acc := if seq = "" then acc ++ [msg_seq_empty seq_id] else acc
    let acc := if invalidCharsOf seq ≠ [] then acc ++ [msg_seq_invalid seq_id (invalidCharsOf seq)] else acc
    check_seqs_specifications rest acc

def mandatory_keys : List String := ["readout", "prediction_tasks", "sequences"]

def msg_missing_mandatory (missing : List String) : String :=
  "The following mandatory top-level keys are missing from the JSON: " ++ String.intercalate ", " missing

/-- Embedding of `check_mandatory_keys`. -/
def check_mandatory_keys (evaluator_keys : List String) (acc : List String) : List String :=
  let missing := pySorted (mandatory_keys.filter (fun k => !evaluator_keys.contains k))
  if missing ≠ [] then acc ++ [msg_missing_mandatory missing] else acc

def msg_readout_unrecognized : String :=
  "readout requested is not recognized. Please choose from [\x27point\x27, \x27track\x27, \x27interaction_matrix\x27]"

def msg_readout_not_string : String := "\x27readout\x27 value should be a string"

def msg_readout_one_value : String := "\x27readout\x27 should only have 1 value"

/-- Embedding of `check_key_values_readout`: three independent tests, each
appending its own message. -/
def check_key_values_readout (readout_value : PVal) (acc : List String) : List String :=
  let acc := if pvalInStrs readout_value ["point", "track", "interaction_matrix"] then acc
             else acc ++ [msg_readout_unrecognized]
  let acc := if readout_value.isStr then acc else acc ++ [msg_readout_not_string]
  if readout_value.isList then acc ++ [msg_readout_one_value] else acc

def task_mandatory_keys : List String := ["name", "type", "cell_type", "species"]

def msg_task_missing (task_identifier : String) (missing : List String) : String :=
  "Mandatory keys missing from prediction_task \x27" ++ task_identifier ++ "\x27: " ++ String.intercalate ", " missing

/-- Embedding of the `enumerate` loop body of
`check_prediction_task_mandatory_keys`. -/
def check_task_keys_from (index : Nat) (tasks : List Task) (acc : List String) : List String :=
  match tasks with
  | [] => acc
  | t :: rest =>
    let missing := pySorted (task_mandatory_keys.filter (fun k => !t.keys.contains k))
    let acc :=
      if missing ≠ [] then
        let task_identifier := match t.name with
          | some v => pyStr v
          | none => "at index " ++ toString index
        acc ++ [msg_task_missing task_identifier missing]
      else acc
    check_task_keys_from (index + 1) rest acc

/-- Embedding of `check_prediction_task_mandatory_keys`. -/
def check_prediction_task_mandatory_keys (prediction_tasks : List Task) (acc : List String) : List String :=
  check_task_keys_from 0 prediction_tasks acc

def msg_name_one_value : String := "\x27name\x27 should only have 1 value"

def msg_name_not_string : String := "\x27name\x27 value should be a string"

/-- Embedding of `check_prediction_task_name`; dereferencing a missing
`name` key is a KeyError.  The two tests are independent (not nested), so
a list-valued `name` receives both messages. -/
def check_prediction_task_name (prediction_tasks : List Task) (acc : List String) : Except String (List String) :=
  match prediction_tasks with
  | [] => .ok acc
  | t :: rest =>
    match t.name with
    | none => .error "KeyError: \x27name\x27"
    | some v =>
      let acc := if v.isList then acc ++ [msg_name_one_value] else acc
      let acc := if v.isStr then acc else acc ++ [msg_name_not_string]
      check_prediction_task_name rest acc

def prediction_task_options : List String := ["accessibility", "expression"]

def msg_type_one_value : String := "\x27type\x27 should only have 1 value"

def msg_type_unrecognized (v : PVal) : String :=
  "prediction type " ++ pyStr v ++ " is not recognized"

def msg_type_not_string : String := "\x27type\x27 value should be a string"

/-- Python `s.startswith(('binding_', 'expression_', 'conformation_'))`. -/
def typeHasKnownStart (s : String) : Bool :=
  "binding_".isPrefixOf s || "expression_".isPrefixOf s || "conformation_".isPrefixOf s

/-- Embedding of `check_prediction_task_type`: the string/enum tests are
nested under the not-a-list branch. -/
def check_prediction_task_type (prediction_tasks : List Task) (acc : List String) : Except String (List String) :=
  match prediction_tasks with
  | [] => .ok acc
  | t :: rest =>
    match t.type with
    | none => .error "KeyError: \x27type\x27"
    | some v =>
      let acc :=
        match v with
        | .plist _ => acc ++ [msg_type_one_value]
        | .pstr s =>
          if prediction_task_options.contains s || typeHasKnownStart s then acc
          else acc ++ [msg_type_unrecognized (.pstr s)]
        | _ => acc ++ [msg_type_not_string]
      check_prediction_task_type rest acc

def msg_cell_type_one_value : String := "\x27cell_type\x27 should only have 1 value"

def msg_cell_type_not_string : String := "\x27cell_type\x27 value should be a string"

/-- Embedding of `check_prediction_task_cell_type` (tests nested under the
not-a-list branch). -/
def check_prediction_task_cell_type (prediction_tasks : List Task) (acc : List String) : Except String (List String) :=
  match prediction_tasks with
  | [] => .ok acc
  | t :: rest =>
    match t.cell_type with
    | none => .error "KeyError: \x27cell_type\x27"
    | some v =>
      let acc :=
        if v.isList then acc ++ [msg_cell_type_one_value]
        else if v.isStr then acc
        else acc ++ [msg_cell_type_not_string]
      check_prediction_task_cell_type rest acc

def msg_species_one_value : String := "\x27species\x27 should only have 1 value"

def msg_species_not_string : String := "\x27species\x27 value should be a string"

/-- Embedding of `check_prediction_task_species`. -/
def check_prediction_task_species (prediction_tasks : List Task) (acc : List String) : Except String (List String) :=
  match prediction_tasks with
  | [] => .ok acc
  | t :: rest =>
    match t.species with
    | none => .error "KeyError: \x27species\x27"
    | some v =>
      let acc :=
        if v.isList then acc ++ [msg_species_one_value]
        else if v.isStr then acc
        else acc ++ [msg_species_not_string]
      check_prediction_task_species rest acc

def prediction_scale_options : List String := ["linear", "log"]

def msg_scale_one_value : String := "\x27scale\x27 should only have 1 value"

def msg_scale_unrecognized : String :=
  "scale requested is not recognized. Please choose from [\x27log\x27, \x27linear\x27]"

def msg_scale_not_string : String := "\x27scale\x27 value should be a string"

/-- Embedding of `check_prediction_task_scale`: `scale` is optional (its
presence is tested before access, so this check cannot raise); for a
non-list value the enum test and the string test both run. -/
def check_prediction_task_scale (prediction_tasks : List Task) (acc : List String) : List String :=
  match prediction_tasks with
  | [] => acc
  | t :: rest =>
    let acc :=
      match t.scale with
      | none => acc
      | some v =>
        if v.isList then acc ++ [msg_scale_one_value]
        else
          let acc := if pvalInStrs v prediction_scale_options then acc else acc ++ [msg_scale_unrecognized]
          if v.isStr then acc else acc ++ [msg_scale_not_string]
    check_prediction_task_scale rest acc

def msg_pr_not_list (key : String) : String :=
  "Values for \x27" ++ key ++ "\x27 in \x27prediction_ranges\x27 must be in a list"

def msg_pr_two_elements (key : String) : String :=
  "Range array for \x27" ++ key ++ "\x27 in \x27prediction_ranges\x27 must have 2 elements"

def msg_pr_integers (key : String) : String :=
  "Values in \x27" ++ key ++ "\x27 in \x27prediction_ranges\x27 must be integers"

def msg_pr_negative (key : String) (start stop : PVal) : String :=
  "Invalid range for \x27" ++ key ++ "\x27 in \x27prediction_ranges\x27: indices must be positive. Received [" ++ pyStr start ++ ", " ++ pyStr stop ++ "]"

def msg_pr_start_end (key : String) (start stop : PVal) : String :=
  "Invalid range for \x27" ++ key ++ "\x27 in \x27prediction_ranges\x27: start index (" ++ pyStr start ++ ") cannot be greater than end index (" ++ pyStr stop ++ "). Received [" ++ pyStr start ++ ", " ++ pyStr stop ++ "]"

def msg_pr_empty_seq (key : String) : String :=
  "Invalid range for \x27" ++ key ++ "\x27: cannot specify a range for a non-existent or empty sequence."

def msg_pr_out_of_bounds (key : String) (seq_len : Nat) : String :=
  "Invalid range for \x27" ++ key ++ "\x27: index is out of bounds. The maximum valid index for a sequence of length " ++ toString seq_len ++ " is " ++ toString (seq_len - 1) ++ "."

/-- Loop body of `check_prediction_ranges` for one `(key, value)` item.
The checks run in source order; `value[0]`, `value[1]` and the integer
comparisons can raise, which aborts the whole validation (Python has no
handler around these statements).  `or` is short-circuiting. -/
def check_pr_entry (key : String) (value : PVal) (sequences : List (String × String)) (acc : List String) : Except String (List String) :=
  let acc := if value.isList then acc else acc ++ [msg_pr_not_list key]
  if !value.truthy then .ok acc
  else
    match pyLen value with
    | .error e => .error e
    | .ok n =>
      let acc := if n ≠ 2 then acc ++ [msg_pr_two_elements key] else acc
      match pyElems value with
      | .error e => .error e
      | .ok elems =>
        let acc := if elems.all PVal.isIntLike then acc else acc ++ [msg_pr_integers key]
        match pyIndex value 0 with
        | .error e => .error e
        | .ok start =>
          match pyIndex value 1 with
          | .error e => .error e
          | .ok stop =>
            match pyLtVal start (.pint 0) with
            | .error e => .error e
            | .ok startNeg =>
              match (if startNeg then Except.ok true else pyLtVal stop (.pint 0)) with
              | .error e => .error e
              | .ok anyNeg =>
                let acc := if anyNeg then acc ++ [msg_pr_negative key start stop] else acc
                match pyGtVal start stop with
                | .error e => .error e
                | .ok startGt =>
                  let acc := if startGt then acc ++ [msg_pr_start_end key start stop] else acc
                  let seq_len := ((sequences.lookup key).getD "").length
                  match pyGeVal start (.pint seq_len) with
                  | .error e => .error e
                  | .ok startOob =>
                    match (if startOob then Except.ok true else pyGeVal stop (.pint seq_len)) with
                    | .error e => .error e
                    | .ok anyOob =>
                      let acc :=
                        if anyOob then
                          if seq_len = 0 then acc ++ [msg_pr_empty_seq key]
                          else acc ++ [msg_pr_out_of_bounds key seq_len]
                        else acc
                      .ok acc

/-- Embedding of `check_prediction_ranges`: the loop over
`prediction_ranges.items()`. -/
def check_prediction_ranges (prediction_ranges : List (String × PVal)) (sequences : List (String × String)) (acc : List String) : Except String (List String) :=
  match prediction_ranges with
  | [] => .ok acc
  | (key, value) :: rest =>
    match check_pr_entry key value sequences acc with
    | .error e => .error e
    | .ok acc => check_prediction_ranges rest sequences acc

def msg_seq_ids_mismatch : String :=
  "sequence ids in prediction_ranges do not match those in sequences"

/-- Python `dict.keys() == dict.keys()` is set equality of the key sets. -/
def pyKeySetEq (a b : List String) : Bool :=
  a.all (fun k => b.contains k) && b.all (fun k => a.contains k)

/-- Embedding of `check_seq_ids`. -/
def check_seq_ids (prediction_ranges : List (String × PVal)) (sequences : List (String × String)) (acc : List String) : List String :=
  if pyKeySetEq (prediction_ranges.map Prod.fst) (sequences.map Prod.fst) then acc
  else acc ++ [msg_seq_ids_mismatch]

def msg_upstream_one_value : String := "\x27upstream_seq\x27 should only have 1 value"

def msg_upstream_not_string : String := "\x27upstream_seq\x27 value should be a string"

/-- Embedding of `check_key_values_upstream_flank` (string test nested
under the not-a-list branch). -/
def check_key_values_upstream_flank (upstream_seq : PVal) (acc : List String) : List String :=
  match upstream_seq with
  | .plist _ => acc ++ [msg_upstream_one_value]
  | .pstr _ => acc
  | _ => acc ++ [msg_upstream_not_string]

def msg_downstream_one_value : String := "\x27downstream_seq\x27 should only have 1 value"

def msg_downstream_not_string : String := "\x27downstream_seq\x27 value should be a string"

/-- Embedding of `check_key_values_downstream_flank`. -/
def check_key_values_downstream_flank (downstream_seq : PVal) (acc : List String) : List String :=
  match downstream_seq with
  | .plist _ => acc ++ [msg_downstream_one_value]
  | .pstr _ => acc
  | _ => acc ++ [msg_downstream_not_string]

/-! ## Validation (`schema_validation.py`, `validate_request_payload`)

The function raises `BadRequestError(flagged_errors)` at three points: after
the mandatory-key stage, after the per-task mandatory-key stage, and after
all remaining checks have accumulated.  Since the error dictionary has the
single key `bad_prediction_request`, `flagged_errors` is the accumulated
message list itself. -/

/-- The five per-task field checks of lines 27–31, in source order.  The
first four dereference mandatory task keys and so can raise a KeyError. -/
def run_task_field_checks (tasks : List Task) (acc : List String) : Except String (List String) :=
  match check_prediction_task_name tasks acc with
  | .error e => .error e
  | .ok acc =>
    match check_prediction_task_type tasks acc with
    | .error e => .error e
    | .ok acc =>
      match check_prediction_task_cell_type tasks acc with
      | .error e => .error e
      | .ok acc =>
        match check_prediction_task_species tasks acc with
        | .error e => .error e
        | .ok acc => .ok (check_prediction_task_scale tasks acc)

/-- The conditional `prediction_ranges` block of lines 33–35:
`check_seq_ids` then `check_prediction_ranges`, dereferencing
`payload['sequences']`. -/
def run_ranges_checks (payload : Payload) (acc : List String) : Except PyExc (List String) :=
  match payload.prediction_ranges with
  | none => .ok acc
  | some ranges =>
    match payload.sequences with
    | none => .error (.runtime "KeyError: \x27sequences\x27")
    | some seqs =>
      let acc := check_seq_ids ranges seqs acc
      liftRT (check_prediction_ranges ranges seqs acc)

/-- The conditional flank checks of lines 37–40. -/
def run_flank_checks (payload : Payload) (acc : List String) : List String :=
  let acc :=
    match payload.upstream_seq with
    | some u => check_key_values_upstream_flank u acc
    | none => acc
  match payload.downstream_seq with
  | some d => check_key_values_downstream_flank d acc
  | none => acc

/-- Embedding of `validate_request_payload`. -/
def validate_request_payload (payload : Payload) : Except PyExc Unit :=
  let errors := check_mandatory_keys payload.keys []
  if errors ≠ [] then .error (.api (BadRequestError (.ofList errors)))
  else
    match payload.prediction_tasks with
    | none => .error (.runtime "KeyError: \x27prediction_tasks\x27")
    | some tasks =>
      let errors := check_prediction_task_mandatory_keys tasks errors
      if errors ≠ [] then .error (.api (BadRequestError (.ofList errors)))
      else
        match payload.readout with
        | none => .error (.runtime "KeyError: \x27readout\x27")
        | some readout_value =>
          let errors := check_key_values_readout readout_value errors
          match liftRT (run_task_field_checks tasks errors) with
          | .error e => .error e
          | .ok errors =>
            match run_ranges_checks payload errors with
            | .error e => .error e
            | .ok errors =>
              let errors := run_flank_checks payload errors
              if errors ≠ [] then .error (.api (BadRequestError (.ofList errors)))
              else .ok ()

/-! ## Preprocessing (`schema_validation.py`, `preprocess_data`) -/

/-- Python tuple unpacking `start, end = pr` for a truthy value. -/
def pyUnpack2 : PVal → Except String (PVal × PVal)
  | .plist [a, b] => .ok (a, b)
  | .plist _ => .error "ValueError: unpacking requires exactly 2 values"
  | .pstr s =>
    match s.data with
    | [c1, c2] => .ok (.pstr (String.mk [c1]), .pstr (String.mk [c2]))
    | _ => .error "ValueError: unpacking requires exactly 2 values"
  | _ => .error "TypeError: cannot unpack non-iterable object"

/-- Resolution of one slice bound: `None` means the default, an int or bool
is a numeric index, anything else raises. -/
def pySliceArg : PVal → Except String (Option Int)
  | .pnone => .ok none
  | v =>
    match v.toNum with
    | some n => .ok (some n)
    | none => .error "TypeError: slice indices must be integers or None"

/-- Python `end + 1` on a slice endpoint (evaluated before slicing). -/
def pyAddOne (v : PVal) : Except String Int :=
  match v.toNum with
  | some n => .ok (n + 1)
  | none => .error "TypeError: unsupported operand type(s) for +"

/-- Clamp of a Python slice index to `[0, len]`, with negative indices
counting from the end. -/
def pySliceIdx (len : Nat) (i : Int) : Nat :=
  if i < 0 then ((len : Int) + i).toNat else min i.toNat len

/-- Python string slice `s[a:b]`, where an absent `a` defaults to 0. -/
def pySliceStr (s : String) (a : Option Int) (b : Int) : String :=
  let lo := match a with
    | none => 0
    | some i => pySliceIdx s.length i
  let hi := pySliceIdx s.length b
  String.mk ((s.data.drop lo).take (hi - lo))

/-- Replacement of the value stored under an existing key of a dict,
preserving insertion order. -/
def updateAssoc (l : List (String × String)) (key : String) (v : String) : List (String × String) :=
  l.map (fun kv => if kv.1 = key then (kv.1, v) else kv)

/-- The `prediction_ranges` application loop of `preprocess_data` (lines
78–84): each truthy range is unpacked and the named sequence is replaced by
its slice `[start:end+1]`. -/
def applyRangesLoop (ranges : List (String × PVal)) (sequences : List (String × String)) : Except String (List (String × String)) :=
  match ranges with
  | [] => .ok sequences
  | (seq_id, pr) :: rest =>
    if pr.truthy then
      match pyUnpack2 pr with
      | .error e => .error e
      | .ok (start, stop) =>
        match sequences.lookup seq_id with
        | none => .error ("KeyError: \x27" ++ seq_id ++ "\x27")
        | some s =>
          match pyAddOne stop with
          | .error e => .error e
          | .ok hi =>
            match pySliceArg start with
            | .error e => .error e
            | .ok lo =>
              applyRangesLoop rest (updateAssoc sequences seq_id (pySliceStr s lo hi))
    else applyRangesLoop rest sequences

/-- The flank-application step of `preprocess_data` (lines 57–75): when
either flank key is present and either value truthy, every sequence is
replaced by `f"{upstream_seq}{sequence}{downstream_seq}"`. -/
def applyFlanking (payload : Payload) (sequences : List (String × String)) : List (String × String) :=
  if payload.upstream_seq.isSome || payload.downstream_seq.isSome then
    let upstream_seq := payload.upstream_seq.getD (.pstr "")
    let downstream_seq := payload.downstream_seq.getD (.pstr "")
    if upstream_seq.truthy || downstream_seq.truthy then
      sequences.map (fun kv => (kv.1, pyStr upstream_seq ++ kv.2 ++ pyStr downstream_seq))
    else sequences
  else sequences

def msg_unsupported_readout (readout_type : PVal) : String :=
  "Test Predictor cannot process \x27" ++ pyStr readout_type ++ "\x27 readout type."

/-- Embedding of `preprocess_data`.  Note the order of the final gates: the
readout membership test raises a `BadRequestError` *before* the accumulated
model-specification violations are examined, so those violations are
discarded whenever the readout is unsupported. -/
def preprocess_data (payload : Payload) : Except PyExc (List (String × String)) :=
  let sequences := payload.sequences.getD []
  let sequences := applyFlanking payload sequences
  match (match payload.prediction_ranges with
         | some ranges => liftRT (applyRangesLoop ranges sequences)
         | none => .ok sequences) with
  | .error e => .error e
  | .ok sequences =>
    let errors := check_seqs_specifications sequences []
    match payload.readout with
    | none => .error (.runtime "KeyError: \x27readout\x27")
    | some readout_type =>
      if !pvalInStrs readout_type ["point", "track"] then
        .error (.api (BadRequestError (.ofStr (msg_unsupported_readout readout_type))))
      else if errors ≠ [] then
        .error (.api (PredictionFailedError (.ofList errors)))
      else .ok sequences

/-! ## CpG computation (`cpg_utils.py`)

The float arithmetic is modelled over `ℝ`; the smoothing constant `1e-9`
is the exact rational `1/1000000000`.  Division of a Python float by the
int `0` raises `ZeroDivisionError`, which is modelled explicitly. -/

/-- The smoothing constant `epsilon = 1e-9`. -/
noncomputable def epsilon : ℝ := 1 / 1000000000

/-- The loop `sum(1 for i in range(len(s)-1) if s[i:i+2] == "CG")`: one per
position whose adjacent pair is `CG`. -/
def countCG_pairs : List Char → Nat
  | c1 :: c2 :: rest => (if c1 = 'C' ∧ c2 = 'G' then 1 else 0) + countCG_pairs (c2 :: rest)
  | _ => 0

/-- Python `str.count("CG")`: non-overlapping left-to-right scan.  (For the
pattern `CG` occurrences can never overlap, so this also counts every
occurrence.) -/
def strCountCG : List Char → Nat
  | 'C' :: 'G' :: rest => strCountCG rest + 1
  | _ :: rest => strCountCG rest
  | [] => 0

/-- Embedding of `cpg_mean`.  A scale other than `linear`/`log` leaves the
result variable unassigned, an `UnboundLocalError`. -/
noncomputable def cpg_mean (seq : String) (scale_actual : String) : Except String ℝ :=
  let s := pyUpper seq
  let total_cpg := countCG_pairs s.data
  if s.length = 0 then .error "ZeroDivisionError: float division by zero"
  else
    let mean_val : ℝ := ((total_cpg : ℝ) + epsilon) / (s.length : ℝ)
    if scale_actual = "linear" then .ok mean_val
    else if scale_actual = "log" then .ok (Real.logb 2 mean_val)
    else .error "UnboundLocalError: local variable \x27cpg_mean\x27 referenced before assignment"

/-- The cleaning step `sequence.upper().replace(' ', '').replace('\n', '')`. -/
def cleanSeq (sequence : String) : String :=
  String.mk ((pyUpper sequence).data.filter (fun c => !(c == ' ' || c == '\n')))

/-- Embedding of `calculate_cpg_per_base`.  The data-frame columns other
than `cpg_density` are computed by the source and discarded; only the
density column reaches the returned list.  A scale outside `linear`/`log`
leaves `cpg_bp` unassigned, an `UnboundLocalError`. -/
noncomputable def calculate_cpg_per_base (sequence : String) (scale_actual : String) (window_size : Nat) : Except String (List ℝ) :=
  let s := cleanSeq sequence
  let seq_len := s.length
  let half_window := window_size / 2
  let cpg_density : Nat → ℝ := fun i =>
    let start := i - half_window
    let stop := min seq_len (i + half_window)
    let window_seq := (s.data.drop start).take (stop - start)
    let cpgs_in_window := strCountCG window_seq
    let window_len := stop - start
    if window_len > 0 then ((cpgs_in_window : ℝ) / (window_len : ℝ)) * 100 else 0
  let dens := (List.range seq_len).map cpg_density
  if scale_actual = "linear" then .ok dens
  else if scale_actual = "log" then .ok (dens.map (fun x => Real.logb 2 (x + epsilon)))
  else .error "UnboundLocalError: local variable \x27cpg_bp\x27 referenced before assignment"

/-- The per-sequence loop of `predict_cpg`, propagating the first raised
exception as Python does. -/
def seqMapM (f : String → Except String α) : List (String × String) → Except String (List (String × α))
  | [] => .ok []
  | (k, s) :: rest =>
    match f s with
    | .error e => .error e
    | .ok v =>
      match seqMapM f rest with
      | .error e => .error e
      | .ok r => .ok ((k, v) :: r)

/-- Embedding of `predict_cpg`.  `scale_requested` is `None` or the task's
`scale` string; the resolved scale is returned along with the predictions.
For `point` each prediction is the singleton `[cpg_mean(...)]`. -/
noncomputable def predict_cpg (sequences : List (String × String)) (readout : String) (scale_requested : Option String) : Except String (List (String × List ℝ) × String) :=
  let scale_actual :=
    match scale_requested with
    | none => "linear"
    | some s => s
  let preds : Except String (List (String × List ℝ)) :=
    if readout = "point" then
      seqMapM (fun s => (cpg_mean s scale_actual).map (fun v => [v])) sequences
    else if readout = "track" then
      seqMapM (fun s => calculate_cpg_per_base s scale_actual 50) sequences
    else .ok []
  match preds with
  | .error e => .error e
  | .ok p => .ok (p, scale_actual)

/-! ## Content negotiation (`predictor_content_handler.py`)

The Flask `request` object is ambient in the source; its relevant
projections (the `Content-Type` and `Accept` headers and the body) are
passed explicitly here.  The third-party JSON/MessagePack parsers are
abstracted: a body is characterised by whether each library can decode it
(`some` decoded payload or `none` for a raised parse exception); the
library's exception text interpolated into the error message is abstracted
to a fixed placeholder. -/

/-- A wire body, characterised by the outcomes of the two decoders. -/
structure WireBody where
  getJson : Option Payload
  unpackMsgpack : Option Payload

def renderStrList (l : List String) : String :=
  "[" ++ String.intercalate ", " (l.map (fun s => "\x27" ++ s ++ "\x27")) ++ "]"

def msg_unsupported_content_type (content_type : String) (supported : List String) : String :=
  "Unsupported Content-Type: " ++ content_type ++ ". Must be one of " ++ renderStrList supported

def msg_json_decode_failed : String :=
  "Could not parse JSON payload: <exception>"

def msg_msgpack_decode_failed : String :=
  "Could not decode MsgPack payload: <exception>"

/-- Resolution of the declared content type (lines 22–28): a missing or
empty header defaults to JSON, otherwise the header is lower-cased. -/
def resolveContentType (content_type_header : Option String) : String :=
  if (content_type_header.getD "") = "" then "application/json"
  else pyLower (content_type_header.getD "")

/-- Embedding of `decode_request`. -/
def decode_request (supported_request_formats : List String) (content_type_header : Option String) (body : WireBody) : Except APIErrorS Payload :=
  let content_type := resolveContentType content_type_header
  if !supported_request_formats.contains content_type then
    .error (BadRequestError (.ofStr (msg_unsupported_content_type content_type supported_request_formats)))
  else if content_type = "application/json" then
    match body.getJson with
    | some v => .ok v
    | none => .error (BadRequestError (.ofStr msg_json_decode_failed))
  else if content_type = "application/msgpack" then
    match body.unpackMsgpack with
    | some v => .ok v
    | none => .error (BadRequestError (.ofStr msg_msgpack_decode_failed))
  else
    .error (BadRequestError (.ofStr (msg_unsupported_content_type content_type supported_request_formats)))

/-- Python substring membership `needle in hay`. -/
def charsContain (needle : List Char) : List Char → Bool
  | [] => needle.isEmpty
  | c :: rest => needle.isPrefixOf (c :: rest) || charsContain needle rest

def pyInStr (needle hay : String) : Bool := charsContain needle.data hay.data

/-- The encoded response: its (pre-serialisation) payload, status code and
negotiated MIME type.  Serialisation of the modelled value forms cannot
fail, so the `ServerError` branches of the source are unreachable here. -/
structure EncodedResponse where
  payload : List (String × PVal)
  status : Nat
  mimetype : String

/-- Embedding of `encode_response`.  `accept_header` is
`request.headers.get("Accept", "")`; `supported_response_formats = None`
defaults to JSON-only. -/
def encode_response (payload : List (String × PVal)) (status_code : Nat) (isError : Bool) (accept_header : String) (supported_response_formats : Option (List String)) (predictor_name : String) : EncodedResponse :=
  let srf := supported_response_formats.getD ["application/json"]
  let payload :=
    if (payload.lookup "predictor_name").isNone then ("predictor_name", PVal.pstr predictor_name) :: payload
    else payload
  let response_format :=
    if isError then "application/json"
    else
      let accept := pyLower accept_header
      if pyInStr "application/msgpack" accept && srf.contains "application/msgpack" then "application/msgpack"
      else "application/json"
  { payload := payload, status := status_code, mimetype := response_format }

/-! ## Specification-side definitions

The following definitions transcribe the *claims'* wording (not the
source); each theorem comparing them with the source embedding is a
refinement statement. -/

/-- Claim C5's count: the number of positions whose case-normalised
adjacent pair equals `CG`. -/
def specCpGSiteCount (s : String) : Nat :=
  (((pyUpper s).data.zip ((pyUpper s).data.drop 1)).filter (fun p => p.1 == 'C' && p.2 == 'G')).length

/-- Claim C5's point prediction: the smoothed ratio, log₂-scaled exactly
when the resolved scale is `log`. -/
noncomputable def specPointPrediction (s : String) (scale : String) : ℝ :=
  let r := ((specCpGSiteCount s : ℝ) + 1 / 1000000000) / (s.length : ℝ)
  if scale = "log" then Real.logb 2 r else r

/-- Claim C6's per-position track value over the cleaned sequence `t`: the
`CG` count of the window `[i-25, i+25)` clipped to the sequence bounds,
divided by the clipped window length and scaled by 100, with
`log2(density + 1e-9)` applied elementwise under the `log` scale. -/
noncomputable def specTrackValue (t : String) (scale : String) (i : Nat) : ℝ :=
  let lo := i - 25
  let hi := min t.length (i + 25)
  let window := (t.data.drop lo).take (hi - lo)
  let density := ((strCountCG window : ℝ) / ((hi - lo : Nat) : ℝ)) * 100
  if scale = "log" then Real.logb 2 (density + 1 / 1000000000) else density

/-- Claim C4's trimming step, applied to an already-flanked sequence map:
an id with a two-integer range is replaced by the slice `[start:end+1]` of
its current (flanked) sequence; any other id (empty-list range or no
range) is left unchanged. -/
def specTrim (ranges : List (String × PVal)) (sequences : List (String × String)) : List (String × String) :=
  sequences.map (fun kv =>
    (kv.1,
      match ranges.lookup kv.1 with
      | some (.plist [.pint a, .pint b]) => pySliceStr kv.2 (some a) (b + 1)
      | _ => kv.2))

/-- Claim C9's sequence precondition: non-empty and drawn case-insensitively
from the alphabet A, C, G, T, N. -/
def validSequence (s : String) : Prop :=
  s ≠ "" ∧ ∀ c ∈ s.data, Char.toUpper c ∈ valid_bases

instance (s : String) : Decidable (validSequence s) := by
  unfold validSequence
  infer_instance

/-- The window length of `calculate_cpg_per_base` at position `i` of a
sequence of length `len`, named so that divisor-positivity can be stated. -/
def windowLen (window_size len i : Nat) : Nat :=
  min len (i + window_size / 2) - (i - window_size / 2)

/-! ## Derived message-list views of the checks

These definitions name the fresh contribution of each validation check
(the messages it appends to an empty accumulator) so that the
accumulation theorems can state that `validate_request_payload` raises the
concatenation of all of them.  They are projections of the source
embedding above, not re-models. -/

/-- All four mandatory keys present in every task, the property the
second validation stage establishes. -/
def tasksComplete (tasks : List Task) : Prop :=
  ∀ t ∈ tasks, t.name.isSome ∧ t.type.isSome ∧ t.cell_type.isSome ∧ t.species.isSome

instance (tasks : List Task) : Decidable (tasksComplete tasks) := by
  unfold tasksComplete
  infer_instance

/-- Range values on which `check_prediction_ranges` cannot raise: an empty
list, or a list whose first two elements are integers. -/
def rangeValueSafe (v : PVal) : Prop :=
  v = .plist [] ∨ ∃ a b rest, v = .plist (.pint a :: .pint b :: rest)

/-- The messages `check_pr_entry` accumulates for a range value whose
first two elements are the integers `a`, `b` (with possible further
elements `rest`). -/
def prEntryMsgs (k : String) (a b : Int) (rest : List PVal) (seqs : List (String × String)) : List String :=
  (if rest.isEmpty then [] else [msg_pr_two_elements k]) ++
  (if rest.all PVal.isIntLike then [] else [msg_pr_integers k]) ++
  (if a < 0 ∨ b < 0 then [msg_pr_negative k (.pint a) (.pint b)] else []) ++
  (if a > b then [msg_pr_start_end k (.pint a) (.pint b)] else []) ++
  (if a ≥ (((seqs.lookup k).getD "").length : Int) ∨ b ≥ (((seqs.lookup k).getD "").length : Int) then
    (if ((seqs.lookup k).getD "").length = 0 then [msg_pr_empty_seq k]
     else [msg_pr_out_of_bounds k ((seqs.lookup k).getD "").length])
   else [])

/-- The messages `check_prediction_ranges` accumulates over safe entries. -/
def rangesMsgs (ranges : List (String × PVal)) (seqs : List (String × String)) : List String :=
  (ranges.map (fun kv =>
    match kv.2 with
    | .plist (.pint a :: .pint b :: rest) => prEntryMsgs kv.1 a b rest seqs
    | _ => [])).flatten

/-- The value of an `Except`-typed check that is known not to raise. -/
def okMsgs (e : Except String (List String)) : List String :=
  e.toOption.getD []

/-- Fresh messages of the conditional `prediction_ranges` block. -/
def rangesStageMsgs (p : Payload) : List String :=
  match p.prediction_ranges, p.sequences with
  | some ranges, some seqs => check_seq_ids ranges seqs [] ++ rangesMsgs ranges seqs
  | _, _ => []

/-- Fresh messages of the conditional flank checks. -/
def flankMsgs (p : Payload) : List String :=
  (match p.upstream_seq with
   | some u => check_key_values_upstream_flank u []
   | none => []) ++
  (match p.downstream_seq with
   | some d => check_key_values_downstream_flank d []
   | none => [])

/-- The concatenated fresh messages of every post-key-presence check, in
the order `validate_request_payload` runs them. -/
def stage3Msgs (p : Payload) (tasks : List Task) (readout_value : PVal) : List String :=
  check_key_values_readout readout_value [] ++
  okMsgs (check_prediction_task_name tasks []) ++
  okMsgs (check_prediction_task_type tasks []) ++
  okMsgs (check_prediction_task_cell_type tasks []) ++
  okMsgs (check_prediction_task_species tasks []) ++
  check_prediction_task_scale tasks [] ++
  rangesStageMsgs p ++
  flankMsgs p

/-! # Theorems -/

/-! ## Basic lemmas about the helpers -/

lemma insertSorted_ne_nil (x : String) (l : List String) : insertSorted x l ≠ [] := by
  cases l with
  | nil => simp [insertSorted]
  | cons y ys =>
    unfold insertSorted
    split <;> simp

lemma pySorted_eq_nil_iff (l : List String) : pySorted l = [] ↔ l = [] := by
  cases l with
  | nil => simp [pySorted]
  | cons x xs => simp [pySorted, insertSorted_ne_nil]

lemma mem_keys_readout (p : Payload) :
    "readout" ∈ p.keys ↔ p.readout.isSome := by
  rcases p with ⟨r, t, s, pr, u, d⟩
  cases r <;> cases t <;> cases s <;> cases pr <;> cases u <;> cases d <;> simp [Payload.keys]

lemma mem_keys_prediction_tasks (p : Payload) :
    "prediction_tasks" ∈ p.keys ↔ p.prediction_tasks.isSome := by
  rcases p with ⟨r, t, s, pr, u, d⟩
  cases r <;> cases t <;> cases s <;> cases pr <;> cases u <;> cases d <;> simp [Payload.keys]

lemma mem_keys_sequences (p : Payload) :
    "sequences" ∈ p.keys ↔ p.sequences.isSome := by
  rcases p with ⟨r, t, s, pr, u, d⟩
  cases r <;> cases t <;> cases s <;> cases pr <;> cases u <;> cases d <;> simp [Payload.keys]

/-! ## C1: missing mandatory top-level keys -/

/-- C1.  If any of the mandatory top-level keys `readout`,
`prediction_tasks`, `sequences` is absent, `validate_request_payload`
raises a `BadRequestError` (HTTP 400) whose message list is exactly the
single message listing the sorted missing-key set; no message from any
later check (task-level, readout, range or flank) appears, because the
function returns at the first stage boundary. -/
theorem c1_missing_mandatory_top_level_keys (p : Payload)
    (h : p.readout = none ∨ p.prediction_tasks = none ∨ p.sequences = none) :
    validate_request_payload p =
      .error (.api (BadRequestError (.ofList [msg_missing_mandatory
        (pySorted (mandatory_keys.filter (fun k => !p.keys.contains k)))]))) ∧
    (BadRequestError (.ofList [msg_missing_mandatory
        (pySorted (mandatory_keys.filter (fun k => !p.keys.contains k)))])).status_code = 400 := by
  have hmem : mandatory_keys.filter (fun k => !p.keys.contains k) ≠ [] := by
    rcases h with h | h | h
    · have : "readout" ∈ mandatory_keys.filter (fun k => !p.keys.contains k) := by
        rw [List.mem_filter]
        refine ⟨by simp [mandatory_keys], ?_⟩
        simp [mem_keys_readout, h]
      exact List.ne_nil_of_mem this
    · have : "prediction_tasks" ∈ mandatory_keys.filter (fun k => !p.keys.contains k) := by
        rw [List.mem_filter]
        refine ⟨by simp [mandatory_keys], ?_⟩
        simp [mem_keys_prediction_tasks, h]
      exact List.ne_nil_of_mem this
    · have : "sequences" ∈ mandatory_keys.filter (fun k => !p.keys.contains k) := by
        rw [List.mem_filter]
        refine ⟨by simp [mandatory_keys], ?_⟩
        simp [mem_keys_sequences, h]
      exact List.ne_nil_of_mem this
  have hs : pySorted (mandatory_keys.filter (fun k => !p.keys.contains k)) ≠ [] := by
    simpa [pySorted_eq_nil_iff] using hmem
  have hcm : check_mandatory_keys p.keys [] =
      [msg_missing_mandatory (pySorted (mandatory_keys.filter (fun k => !p.keys.contains k)))] := by
    simp only [check_mandatory_keys]
    rw [if_pos hs]
    simp
  refine ⟨?_, rfl⟩
  simp only [validate_request_payload, hcm]
  simp

/-- Witness for C1 at a concrete payload with only `readout` present. -/
theorem c1_missing_mandatory_top_level_keys_witness :
    validate_request_payload ⟨some (.pstr "point"), none, none, none, none, none⟩ =
      .error (.api (BadRequestError (.ofList [msg_missing_mandatory
        (pySorted (mandatory_keys.filter
          (fun k => !(Payload.keys ⟨some (.pstr "point"), none, none, none, none, none⟩).contains k)))]))) :=
  (c1_missing_mandatory_top_level_keys ⟨some (.pstr "point"), none, none, none, none, none⟩
    (Or.inr (Or.inl rfl))).1

/-! ## C7: response-format negotiation -/

/-- C7.  `encode_response` encodes an error response as
`application/json` whatever the `Accept` header says; a non-error
response is encoded as `application/msgpack` exactly when the (lower-cased)
`Accept` header contains `application/msgpack` and the server's supported
response formats include it, and as `application/json` otherwise. -/
theorem c7_encode_response_negotiation
    (payload : List (String × PVal)) (status_code : Nat) (isError : Bool)
    (accept_header : String) (srf : Option (List String)) (predictor_name : String) :
    (isError = true →
      (encode_response payload status_code isError accept_header srf predictor_name).mimetype = "application/json") ∧
    (isError = false →
      ((encode_response payload status_code isError accept_header srf predictor_name).mimetype = "application/msgpack" ↔
        (pyInStr "application/msgpack" (pyLower accept_header) = true ∧
         "application/msgpack" ∈ srf.getD ["application/json"]))) ∧
    (isError = false →
      ((encode_response payload status_code isError accept_header srf predictor_name).mimetype = "application/json" ↔
        ¬(pyInStr "application/msgpack" (pyLower accept_header) = true ∧
          "application/msgpack" ∈ srf.getD ["application/json"]))) := by
  cases isError with
  | true =>
    refine ⟨fun _ => ?_, fun h => ?_, fun h => ?_⟩
    · simp [encode_response]
    · exact Bool.noConfusion h
    · exact Bool.noConfusion h
  | false =>
    have hm : (encode_response payload status_code false accept_header srf predictor_name).mimetype =
        if pyInStr "application/msgpack" (pyLower accept_header) &&
            (srf.getD ["application/json"]).contains "application/msgpack" then "application/msgpack"
        else "application/json" := by
      simp [encode_response]
    have key : ∀ (b : Bool) (l : List String),
        ((if b && l.contains "application/msgpack" then "application/msgpack" else "application/json") =
            "application/msgpack" ↔ (b = true ∧ "application/msgpack" ∈ l)) := by
      intro b l
      rcases hc : l.contains "application/msgpack" with _ | _
      · have hnm : "application/msgpack" ∉ l := by
          intro hmem
          rw [← List.elem_iff] at hmem
          exact absurd hmem (ne_true_of_eq_false hc)
        cases b <;> simp [hc, hnm]
      · have hmem : "application/msgpack" ∈ l := List.elem_iff.mp hc
        cases b <;> simp [hc, hmem]
    have key2 : ∀ (b : Bool) (l : List String),
        ((if b && l.contains "application/msgpack" then "application/msgpack" else "application/json") =
            "application/json" ↔ ¬(b = true ∧ "application/msgpack" ∈ l)) := by
      intro b l
      rcases hc : l.contains "application/msgpack" with _ | _
      · have hnm : "application/msgpack" ∉ l := by
          intro hmem
          rw [← List.elem_iff] at hmem
          exact absurd hmem (ne_true_of_eq_false hc)
        cases b <;> simp [hc, hnm]
      · have hmem : "application/msgpack" ∈ l := List.elem_iff.mp hc
        cases b <;> simp [hc, hmem]
    refine ⟨fun h => Bool.noConfusion h, fun _ => ?_, fun _ => ?_⟩ <;> rw [hm]
    · exact key _ _
    · exact key2 _ _

/-- Witness for C7: a concrete error response ignores an `Accept` header
requesting MessagePack, while the same non-error call honours it. -/
theorem c7_encode_response_negotiation_witness :
    (encode_response [] 400 true "application/msgpack"
      (some ["application/json", "application/msgpack"]) "CpG Predictor").mimetype = "application/json" ∧
    (encode_response [] 200 false "application/msgpack"
      (some ["application/json", "application/msgpack"]) "CpG Predictor").mimetype = "application/msgpack" := by
  constructor
  · exact (c7_encode_response_negotiation [] 400 true "application/msgpack"
      (some ["application/json", "application/msgpack"]) "CpG Predictor").1 rfl
  · exact ((c7_encode_response_negotiation [] 200 false "application/msgpack"
      (some ["application/json", "application/msgpack"]) "CpG Predictor").2.1 rfl).mpr
      ⟨by decide, by decide⟩

/-! ## C8: request decoding -/

/-- C8.  `decode_request` resolves a missing `Content-Type` header to
`application/json` and otherwise compares the header case-insensitively;
a resolved type outside the supported request formats raises a 400
`BadRequestError`; and every failure of `decode_request` — including a
body the resolved decoder cannot parse, such as
`Content-Type: application/msgpack` with a body only the JSON decoder
accepts — is a 400 `bad_prediction_request` error, never a 500. -/
theorem c8_decode_request_dispatch
    (supported : List String) (hdr : Option String) (body : WireBody) :
    resolveContentType none = "application/json" ∧
    (∀ s : String, s ≠ "" → resolveContentType (some s) = pyLower s) ∧
    (supported.contains (resolveContentType hdr) = false →
      decode_request supported hdr body =
        .error (BadRequestError (.ofStr (msg_unsupported_content_type (resolveContentType hdr) supported)))) ∧
    (∀ e, decode_request supported hdr body = .error e →
      e.status_code = 400 ∧ e.error_key = "bad_prediction_request") ∧
    (supported.contains "application/msgpack" = true →
      body.getJson.isSome →
      body.unpackMsgpack = none →
      decode_request supported (some "application/msgpack") body =
        .error (BadRequestError (.ofStr msg_msgpack_decode_failed))) := by
  refine ⟨rfl, ?_, ?_, ?_, ?_⟩
  · intro s hs
    simp [resolveContentType, hs]
  · intro hct
    have hnm : resolveContentType hdr ∉ supported := by
      intro hmem
      have h2 : supported.contains (resolveContentType hdr) = true := List.elem_iff.mpr hmem
      rw [h2] at hct
      exact absurd hct (by decide)
    simp [decode_request, hnm]
  · intro e he
    simp only [decode_request] at he
    split at he
    · cases he
      exact ⟨rfl, rfl⟩
    · split at he
      · split at he
        · cases he
        · cases he
          exact ⟨rfl, rfl⟩
      · split at he
        · split at he
          · cases he
          · cases he
            exact ⟨rfl, rfl⟩
        · cases he
          exact ⟨rfl, rfl⟩
  · intro h1 h2 h3
    have hres : resolveContentType (some "application/msgpack") = "application/msgpack" := by decide
    have hmem : "application/msgpack" ∈ supported := List.elem_iff.mp h1
    simp [decode_request, hres, h3, hmem]

/-- Witness for C8: a request declaring `Content-Type: application/msgpack`
whose body only the JSON decoder accepts fails with the 400 MsgPack decode
error. -/
theorem c8_decode_request_dispatch_witness :
    decode_request ["application/json", "application/msgpack"] (some "application/msgpack")
      ⟨some ⟨none, none, none, none, none, none⟩, none⟩ =
      .error (BadRequestError (.ofStr msg_msgpack_decode_failed)) :=
  (c8_decode_request_dispatch ["application/json", "application/msgpack"] (some "application/msgpack")
    ⟨some ⟨none, none, none, none, none, none⟩, none⟩).2.2.2.2 (by decide) rfl rfl

/-! ## Lemmas about the preprocessing steps -/

lemma updateAssoc_keys (l : List (String × String)) (k : String) (v : String) :
    (updateAssoc l k v).map Prod.fst = l.map Prod.fst := by
  unfold updateAssoc
  rw [List.map_map]
  apply List.map_congr_left
  intro kv _
  by_cases h : kv.1 = k <;> simp [h]

lemma lookup_isSome_of_mem_keys {l : List (String × String)} {k : String}
    (h : k ∈ l.map Prod.fst) : ∃ s, l.lookup k = some s := by
  induction l with
  | nil => simp at h
  | cons kv rest ih =>
    by_cases hk : k = kv.1
    · exact ⟨kv.2, by simp [List.lookup, hk]⟩
    · have : k ∈ rest.map Prod.fst := by
        rcases List.mem_cons.mp h with h1 | h1
        · exact absurd h1 hk
        · exact h1
      obtain ⟨s, hs⟩ := ih this
      have hbe : (k == kv.1) = false := beq_eq_false_iff_ne.mpr hk
      exact ⟨s, by simp [List.lookup, hbe, hs]⟩

lemma applyRangesLoop_isOk (ranges : List (String × PVal)) (seqs : List (String × String))
    (hwf : ∀ kv ∈ ranges, kv.2.truthy → ∃ a b : Int, kv.2 = PVal.plist [.pint a, .pint b])
    (hkeys : ∀ kv ∈ ranges, kv.2.truthy → kv.1 ∈ seqs.map Prod.fst) :
    ∃ out, applyRangesLoop ranges seqs = .ok out ∧ out.map Prod.fst = seqs.map Prod.fst := by
  induction ranges generalizing seqs with
  | nil => exact ⟨seqs, rfl, rfl⟩
  | cons kv rest ih =>
    obtain ⟨k, v⟩ := kv
    by_cases ht : v.truthy
    · obtain ⟨a, b, hv⟩ := hwf (k, v) (List.mem_cons_self _ _) ht
      have hk : k ∈ seqs.map Prod.fst := hkeys (k, v) (List.mem_cons_self _ _) ht
      obtain ⟨s, hs⟩ := lookup_isSome_of_mem_keys hk
      subst hv
      obtain ⟨out, hout, hkeq⟩ := ih (updateAssoc seqs k (pySliceStr s (some a) (b + 1)))
        (fun kv hm htr => hwf kv (List.mem_cons_of_mem _ hm) htr)
        (fun kv hm htr => by
          rw [updateAssoc_keys]
          exact hkeys kv (List.mem_cons_of_mem _ hm) htr)
      refine ⟨out, ?_, by rw [hkeq, updateAssoc_keys]⟩
      simp only [applyRangesLoop, pyUnpack2, pyAddOne, pySliceArg, PVal.toNum, hs]
      simpa using hout
    · simp only [applyRangesLoop, ht, Bool.false_eq_true, if_false]
      exact ih seqs (fun kv hm htr => hwf kv (List.mem_cons_of_mem _ hm) htr)
        (fun kv hm htr => hkeys kv (List.mem_cons_of_mem _ hm) htr)

/-! ## C10: unsupported readout preempts the 422 -/

/-- C10 (amended).  For a payload whose `readout` value is outside
`{point, track}` and whose range-application step completes (every truthy
range value a two-integer list over a known sequence id),
`preprocess_data` raises the 400 `BadRequestError` about the unsupported
readout and never the 422 `PredictionFailedError` — regardless of whether
the sequences violate the model specifications, whose accumulated
violations are thereby discarded. -/
theorem c10_amended_unsupported_readout (p : Payload) (r : PVal)
    (hr : p.readout = some r)
    (hnot : pvalInStrs r ["point", "track"] = false)
    (hranges : ∀ ranges, p.prediction_ranges = some ranges →
      (∀ kv ∈ ranges, kv.2.truthy → ∃ a b : Int, kv.2 = PVal.plist [.pint a, .pint b]) ∧
      (∀ kv ∈ ranges, kv.2.truthy → kv.1 ∈ (applyFlanking p (p.sequences.getD [])).map Prod.fst)) :
    preprocess_data p = .error (.api (BadRequestError (.ofStr (msg_unsupported_readout r)))) ∧
    (BadRequestError (.ofStr (msg_unsupported_readout r))).status_code = 400 ∧
    ∀ m, preprocess_data p ≠ .error (.api (PredictionFailedError m)) := by
  have hmain : preprocess_data p = .error (.api (BadRequestError (.ofStr (msg_unsupported_readout r)))) := by
    unfold preprocess_data
    cases hpr : p.prediction_ranges with
    | none =>
      rw [hr]
      simp [hnot]
    | some ranges =>
      obtain ⟨hwf, hk⟩ := hranges ranges hpr
      obtain ⟨out, hout, -⟩ := applyRangesLoop_isOk ranges (applyFlanking p (p.sequences.getD [])) hwf hk
      rw [hr]
      simp only [hout, liftRT, hnot]
      simp [hnot]
  refine ⟨hmain, rfl, ?_⟩
  intro m hcontra
  rw [hmain] at hcontra
  simp [BadRequestError, PredictionFailedError, APIErrorS.mk.injEq] at hcontra

/-- Counterexample to C10 as stated: a payload with an unsupported readout
and a spec-violating (empty) sequence whose range value `[0, 1, 2]` makes
the earlier range-unpacking step raise a ValueError, so neither the 400
readout error nor any other `BadRequestError` is raised. -/
theorem c10_counterexample_runtime_preempts_readout_error :
    pvalInStrs (PVal.pstr "junk") ["point", "track"] = false ∧
    (∃ kv ∈ [("s1", "")], kv.2 = "") ∧
    preprocess_data ⟨some (.pstr "junk"), some [], some [("s1", "")],
        some [("s1", PVal.plist [.pint 0, .pint 1, .pint 2])], none, none⟩ =
      .error (.runtime "ValueError: unpacking requires exactly 2 values") ∧
    (∀ m, preprocess_data ⟨some (.pstr "junk"), some [], some [("s1", "")],
        some [("s1", PVal.plist [.pint 0, .pint 1, .pint 2])], none, none⟩ ≠
      .error (.api (BadRequestError m))) := by
  refine ⟨by decide, ⟨("s1", ""), by simp, rfl⟩, rfl, ?_⟩
  intro m hcontra
  rw [show preprocess_data ⟨some (.pstr "junk"), some [], some [("s1", "")],
        some [("s1", PVal.plist [.pint 0, .pint 1, .pint 2])], none, none⟩ =
      .error (.runtime "ValueError: unpacking requires exactly 2 values") from rfl] at hcontra
  simp at hcontra

/-- Witness for the amended C10 at a concrete payload with readout
`interaction_matrix`, an invalid sequence and an applied range. -/
theorem c10_amended_unsupported_readout_witness :
    preprocess_data ⟨some (.pstr "interaction_matrix"), some [], some [("s1", "AXT")],
        some [("s1", PVal.plist [.pint 0, .pint 1])], none, none⟩ =
      .error (.api (BadRequestError (.ofStr (msg_unsupported_readout (.pstr "interaction_matrix"))))) :=
  (c10_amended_unsupported_readout
    ⟨some (.pstr "interaction_matrix"), some [], some [("s1", "AXT")],
        some [("s1", PVal.plist [.pint 0, .pint 1])], none, none⟩
    (.pstr "interaction_matrix") rfl (by decide)
    (fun ranges hpr => by
      cases hpr
      exact ⟨fun kv hm _ => by
          rcases List.mem_singleton.mp hm with rfl
          exact ⟨0, 1, rfl⟩,
        fun kv hm _ => by
          rcases List.mem_singleton.mp hm with rfl
          simp [applyFlanking]⟩)).1

/-! ## Lemmas about the CpG computation -/

lemma length_pyUpper (s : String) : (pyUpper s).length = s.length :=
  List.length_map _ _

lemma length_ne_zero_of_ne_empty {s : String} (h : s ≠ "") : s.length ≠ 0 := by
  intro hlen
  apply h
  cases s with
  | mk data =>
    cases data with
    | nil => rfl
    | cons c cs => simp [String.length] at hlen

lemma cpg_mean_isOk (s : String) (scale : String) (hs : s ≠ "")
    (hscale : scale = "linear" ∨ scale = "log") : ∃ v, cpg_mean s scale = .ok v := by
  have hlen : ¬((pyUpper s).length = 0) := by
    rw [length_pyUpper]
    exact length_ne_zero_of_ne_empty hs
  rcases hscale with h | h <;> subst h
  · have heq : cpg_mean s "linear" =
        .ok ((↑(countCG_pairs (pyUpper s).data) + epsilon) / ↑(pyUpper s).length) := by
      simp only [cpg_mean]
      rw [if_neg hlen]
      simp
    exact ⟨_, heq⟩
  · have heq : cpg_mean s "log" =
        .ok (Real.logb 2 ((↑(countCG_pairs (pyUpper s).data) + epsilon) / ↑(pyUpper s).length)) := by
      simp only [cpg_mean]
      rw [if_neg hlen]
      simp
    exact ⟨_, heq⟩

lemma calculate_cpg_per_base_isOk (s : String) (scale : String)
    (hscale : scale = "linear" ∨ scale = "log") :
    ∃ v, calculate_cpg_per_base s scale 50 = .ok v := by
  rcases hscale with h | h <;> subst h <;> exact ⟨_, rfl⟩

lemma seqMapM_isOk {α : Type} (f : String → Except String α) (seqs : List (String × String))
    (h : ∀ kv ∈ seqs, ∃ v, f kv.2 = .ok v) : ∃ out, seqMapM f seqs = .ok out := by
  induction seqs with
  | nil => exact ⟨[], rfl⟩
  | cons kv rest ih =>
    obtain ⟨v, hv⟩ := h kv (List.mem_cons_self _ _)
    obtain ⟨out, hout⟩ := ih (fun kv hm => h kv (List.mem_cons_of_mem _ hm))
    exact ⟨(kv.1, v) :: out, by simp [seqMapM, hv, hout]⟩

/-! ## C9: totality of the prediction computation -/

/-- C9 (amended).  Under the claim's preconditions — every sequence
non-empty over the case-insensitive alphabet A, C, G, T, N and readout
`point` or `track` — *and* a requested scale that is absent, `linear` or
`log`, `predict_cpg` cannot fail, and both divisors are non-zero: the
`len(s)` divisor of `cpg_mean` and the clipped window length divisor of
`calculate_cpg_per_base` at every position. -/
theorem c9_amended_no_failure_path (sequences : List (String × String)) (readout : String)
    (scale_requested : Option String)
    (hseq : ∀ kv ∈ sequences, validSequence kv.2)
    (hread : readout = "point" ∨ readout = "track")
    (hscale : scale_requested = none ∨ scale_requested = some "linear" ∨ scale_requested = some "log") :
    (∃ result, predict_cpg sequences readout scale_requested = .ok result) ∧
    (∀ kv ∈ sequences, kv.2.length ≠ 0) ∧
    (∀ kv ∈ sequences, ∀ i, i < (cleanSeq kv.2).length → 0 < windowLen 50 (cleanSeq kv.2).length i) := by
  refine ⟨?_, ?_, ?_⟩
  · have key : ∀ sa : String, sa = "linear" ∨ sa = "log" →
        (∃ result, seqMapM (fun s => (cpg_mean s sa).map (fun v => [v])) sequences = .ok result) ∧
        (∃ result, seqMapM (fun s => calculate_cpg_per_base s sa 50) sequences = .ok result) := by
      intro sa hsa
      constructor
      · apply seqMapM_isOk
        intro kv hm
        obtain ⟨v, hv⟩ := cpg_mean_isOk kv.2 sa (hseq kv hm).1 hsa
        exact ⟨[v], by rw [hv]; rfl⟩
      · apply seqMapM_isOk
        intro kv hm
        exact calculate_cpg_per_base_isOk kv.2 sa hsa
    rcases hread with h | h <;> subst h <;> rcases hscale with h' | h' | h' <;> subst h'
    · obtain ⟨out, hout⟩ := (key "linear" (Or.inl rfl)).1
      exact ⟨(out, "linear"), by simp [predict_cpg, hout]⟩
    · obtain ⟨out, hout⟩ := (key "linear" (Or.inl rfl)).1
      exact ⟨(out, "linear"), by simp [predict_cpg, hout]⟩
    · obtain ⟨out, hout⟩ := (key "log" (Or.inr rfl)).1
      exact ⟨(out, "log"), by simp [predict_cpg, hout]⟩
    · obtain ⟨out, hout⟩ := (key "linear" (Or.inl rfl)).2
      exact ⟨(out, "linear"), by simp [predict_cpg, hout]⟩
    · obtain ⟨out, hout⟩ := (key "linear" (Or.inl rfl)).2
      exact ⟨(out, "linear"), by simp [predict_cpg, hout]⟩
    · obtain ⟨out, hout⟩ := (key "log" (Or.inr rfl)).2
      exact ⟨(out, "log"), by simp [predict_cpg, hout]⟩
  · exact fun kv hm => length_ne_zero_of_ne_empty (hseq kv hm).1
  · intro kv _ i hi
    unfold windowLen
    omega

/-- Counterexample to C9 as stated: its preconditions say nothing about
the requested scale, yet with scale `"bogus"` the preconditions hold and
`predict_cpg` fails with an `UnboundLocalError` (no branch of `cpg_mean`
assigns the result variable). -/
theorem c9_counterexample_unbound_scale :
    (∀ kv ∈ [("s1", "ACGT")], validSequence kv.2) ∧
    ("point" = "point" ∨ "point" = "track") ∧
    predict_cpg [("s1", "ACGT")] "point" (some "bogus") =
      .error "UnboundLocalError: local variable \x27cpg_mean\x27 referenced before assignment" := by
  refine ⟨by decide, Or.inl rfl, ?_⟩
  have h4 : ¬((pyUpper "ACGT").length = 0) := by decide
  simp only [predict_cpg, seqMapM, cpg_mean]
  rw [if_neg h4]
  rfl

/-- Witness for the amended C9 on a concrete track request. -/
theorem c9_amended_no_failure_path_witness :
    (∃ result, predict_cpg [("s1", "ACGTN")] "track" (some "log") = .ok result) ∧
    (∀ kv ∈ [("s1", "ACGTN")], (kv : String × String).2.length ≠ 0) ∧
    (∀ kv ∈ [("s1", "ACGTN")], ∀ i, i < (cleanSeq kv.2).length →
      0 < windowLen 50 (cleanSeq kv.2).length i) :=
  c9_amended_no_failure_path [("s1", "ACGTN")] "track" (some "log")
    (by decide) (Or.inr rfl) (Or.inr (Or.inr rfl))

/-! ## C5: the point readout -/

lemma countCG_pairs_eq_zip (l : List Char) :
    countCG_pairs l = ((l.zip (l.drop 1)).filter (fun p => p.1 == 'C' && p.2 == 'G')).length := by
  induction l with
  | nil => rfl
  | cons c1 rest ih =>
    cases rest with
    | nil => rfl
    | cons c2 rest2 =>
      show (if c1 = 'C' ∧ c2 = 'G' then 1 else 0) + countCG_pairs (c2 :: rest2) = _
      rw [ih]
      by_cases hcg : c1 = 'C' ∧ c2 = 'G'
      · simp [List.filter, hcg.1, hcg.2, Nat.add_comm, List.zip]
      · have hb : (c1 == 'C' && c2 == 'G') = false := by
          cases hx : (c1 == 'C' && c2 == 'G') with
          | false => rfl
          | true =>
            rw [Bool.and_eq_true, beq_iff_eq, beq_iff_eq] at hx
            exact absurd hx hcg
        simp [List.filter, hb, hcg, List.zip]

lemma specCpGSiteCount_eq (s : String) :
    specCpGSiteCount s = countCG_pairs (pyUpper s).data := by
  rw [specCpGSiteCount, countCG_pairs_eq_zip]

/-- On the source side `cpg_mean` computes exactly the claim's smoothed
ratio, log₂-scaled when the resolved scale is `log`. -/
lemma cpg_mean_eq_spec (s : String) (sa : String) (hs : s ≠ "")
    (hsa : sa = "linear" ∨ sa = "log") :
    cpg_mean s sa = .ok (specPointPrediction s sa) := by
  have hlen : ¬((pyUpper s).length = 0) := by
    rw [length_pyUpper]
    exact length_ne_zero_of_ne_empty hs
  have hval : ((countCG_pairs (pyUpper s).data : ℝ) + epsilon) / ((pyUpper s).length : ℝ) =
      ((specCpGSiteCount s : ℝ) + 1 / 1000000000) / (s.length : ℝ) := by
    rw [specCpGSiteCount_eq, length_pyUpper, epsilon]
  rcases hsa with h | h <;> subst h
  · have heq : cpg_mean s "linear" =
        .ok ((↑(countCG_pairs (pyUpper s).data) + epsilon) / ↑(pyUpper s).length) := by
      simp only [cpg_mean]
      rw [if_neg hlen]
      simp
    rw [heq, specPointPrediction]
    simp [hval]
  · have heq : cpg_mean s "log" =
        .ok (Real.logb 2 ((↑(countCG_pairs (pyUpper s).data) + epsilon) / ↑(pyUpper s).length)) := by
      simp only [cpg_mean]
      rw [if_neg hlen]
      simp
    rw [heq, specPointPrediction]
    simp [hval]

lemma seqMapM_eq_map {α : Type} (f : String → Except String α) (g : String → α)
    (seqs : List (String × String)) (h : ∀ kv ∈ seqs, f kv.2 = .ok (g kv.2)) :
    seqMapM f seqs = .ok (seqs.map (fun kv => (kv.1, g kv.2))) := by
  induction seqs with
  | nil => rfl
  | cons kv rest ih =>
    obtain ⟨k, s⟩ := kv
    simp only [seqMapM, h (k, s) (List.mem_cons_self _ _),
      ih (fun kv hm => h kv (List.mem_cons_of_mem _ hm))]
    rfl

/-- The concrete smoothed ratio of the claim's example sequence. -/
lemma cpg_mean_acgcgt_linear :
    cpg_mean "ACGCGT" "linear" = .ok (((2 : ℝ) + 1 / 1000000000) / 6) := by
  have h := cpg_mean_eq_spec "ACGCGT" "linear" (by decide) (Or.inl rfl)
  rw [h, specPointPrediction]
  have hc : specCpGSiteCount "ACGCGT" = 2 := by decide
  have hl : ("ACGCGT" : String).length = 6 := rfl
  norm_num [hc, hl]
  exact fun hcontra => absurd hcontra (by decide)

lemma cpg_mean_acgcgt_log :
    cpg_mean "ACGCGT" "log" = .ok (Real.logb 2 (((2 : ℝ) + 1 / 1000000000) / 6)) := by
  have h := cpg_mean_eq_spec "ACGCGT" "log" (by decide) (Or.inr rfl)
  rw [h, specPointPrediction]
  have hc : specCpGSiteCount "ACGCGT" = 2 := by decide
  have hl : ("ACGCGT" : String).length = 6 := rfl
  norm_num [hc, hl]

lemma logb_ratio_lt : Real.logb 2 (((2 : ℝ) + 1 / 1000000000) / 6) < -1.58 := by
  have hx : (0:ℝ) < ((2 : ℝ) + 1 / 1000000000) / 6 := by norm_num
  have h2 : (1:ℝ) < 2 := by norm_num
  rw [show (-1.58 : ℝ) = -(79 / 50) by norm_num]
  rw [Real.logb_lt_iff_lt_rpow h2 hx]
  have hB : (0:ℝ) < (2:ℝ) ^ (-(79 / 50) : ℝ) := Real.rpow_pos_of_pos (by norm_num) _
  have hBpow : ((2:ℝ) ^ (-(79 / 50) : ℝ)) ^ (50 : ℕ) = ((2:ℝ) ^ (79 : ℕ))⁻¹ := by
    rw [← Real.rpow_natCast ((2:ℝ) ^ (-(79 / 50) : ℝ)) 50, ← Real.rpow_mul (by norm_num)]
    rw [show (-(79 / 50) : ℝ) * (50 : ℕ) = -(79 : ℕ) by push_cast; ring]
    rw [Real.rpow_neg (by norm_num), Real.rpow_natCast]
  have hpow : (((2 : ℝ) + 1 / 1000000000) / 6) ^ (50 : ℕ) < ((2:ℝ) ^ (-(79 / 50) : ℝ)) ^ (50 : ℕ) := by
    rw [hBpow, div_pow, inv_eq_one_div, div_lt_div_iff (by positivity) (by positivity)]
    norm_num
  exact lt_of_pow_lt_pow_left 50 (le_of_lt hB) hpow

lemma logb_ratio_gt : (-1.59 : ℝ) < Real.logb 2 (((2 : ℝ) + 1 / 1000000000) / 6) := by
  have hx : (0:ℝ) < ((2 : ℝ) + 1 / 1000000000) / 6 := by norm_num
  have h2 : (1:ℝ) < 2 := by norm_num
  rw [show (-1.59 : ℝ) = -(159 / 100) by norm_num]
  rw [Real.lt_logb_iff_rpow_lt h2 hx]
  have hBpow : ((2:ℝ) ^ (-(159 / 100) : ℝ)) ^ (100 : ℕ) = ((2:ℝ) ^ (159 : ℕ))⁻¹ := by
    rw [← Real.rpow_natCast ((2:ℝ) ^ (-(159 / 100) : ℝ)) 100, ← Real.rpow_mul (by norm_num)]
    rw [show (-(159 / 100) : ℝ) * (100 : ℕ) = -(159 : ℕ) by push_cast; ring]
    rw [Real.rpow_neg (by norm_num), Real.rpow_natCast]
  have hpow : ((2:ℝ) ^ (-(159 / 100) : ℝ)) ^ (100 : ℕ) < (((2 : ℝ) + 1 / 1000000000) / 6) ^ (100 : ℕ) := by
    rw [hBpow, div_pow, inv_eq_one_div, div_lt_div_iff (by positivity) (by positivity)]
    norm_num
  exact lt_of_pow_lt_pow_left 100 (le_of_lt hx) hpow

/-- C5.  For non-empty sequences under the `point` readout the prediction
for each sequence id is the singleton scalar `(count + 1e-9)/len`, where
`count` is the number of positions whose case-normalised adjacent pair is
`CG`; the resolved scale applies `log₂` exactly when it is `log`.  On the
example `"ACGCGT"`: the linear value is `(2 + 1e-9)/6`, which lies in
`(0.333, 0.334)`, and the log value is its base-2 logarithm, which lies in
`(-1.59, -1.58)`. -/
theorem c5_point_prediction (sequences : List (String × String)) (scale_requested : Option String)
    (hne : ∀ kv ∈ sequences, kv.2 ≠ "")
    (hscale : scale_requested = none ∨ scale_requested = some "linear" ∨ scale_requested = some "log") :
    predict_cpg sequences "point" scale_requested =
      .ok (sequences.map (fun kv => (kv.1, [specPointPrediction kv.2 (scale_requested.getD "linear")])),
        scale_requested.getD "linear") ∧
    cpg_mean "ACGCGT" "linear" = .ok (((2 : ℝ) + 1 / 1000000000) / 6) ∧
    ((0.333 : ℝ) < ((2 : ℝ) + 1 / 1000000000) / 6 ∧ (((2 : ℝ) + 1 / 1000000000) / 6) < 0.334) ∧
    cpg_mean "ACGCGT" "log" = .ok (Real.logb 2 (((2 : ℝ) + 1 / 1000000000) / 6)) ∧
    ((-1.59 : ℝ) < Real.logb 2 (((2 : ℝ) + 1 / 1000000000) / 6) ∧
      Real.logb 2 (((2 : ℝ) + 1 / 1000000000) / 6) < -1.58) := by
  refine ⟨?_, cpg_mean_acgcgt_linear, by norm_num, cpg_mean_acgcgt_log, logb_ratio_gt, logb_ratio_lt⟩
  have hmap : ∀ sa : String, sa = "linear" ∨ sa = "log" →
      seqMapM (fun s => (cpg_mean s sa).map (fun v => [v])) sequences =
        .ok (sequences.map (fun kv => (kv.1, [specPointPrediction kv.2 sa]))) := by
    intro sa hsa
    apply seqMapM_eq_map _ (fun s => [specPointPrediction s sa])
    intro kv hm
    rw [cpg_mean_eq_spec kv.2 sa (hne kv hm) hsa]
    rfl
  rcases hscale with h | h | h <;> subst h
  · have := hmap "linear" (Or.inl rfl)
    simp [predict_cpg, this]
  · have := hmap "linear" (Or.inl rfl)
    simp [predict_cpg, this]
  · have := hmap "log" (Or.inr rfl)
    simp [predict_cpg, this]

/-- Witness for C5 on the claim's own example sequence. -/
theorem c5_point_prediction_witness :
    predict_cpg [("s1", "ACGCGT")] "point" none =
      .ok ([("s1", [specPointPrediction "ACGCGT" "linear"])], "linear") ∧
    cpg_mean "ACGCGT" "linear" = .ok (((2 : ℝ) + 1 / 1000000000) / 6) := by
  have h := c5_point_prediction [("s1", "ACGCGT")] none
    (by intro kv hm; rcases List.mem_singleton.mp hm with rfl; decide) (Or.inl rfl)
  exact ⟨h.1, h.2.1⟩

/-! ## C6: the track readout -/

/-- The source's per-base computation produces exactly the claim's
per-position values over the cleaned sequence. -/
lemma calculate_cpg_per_base_eq_spec (s : String) (scale : String)
    (hscale : scale = "linear" ∨ scale = "log") :
    calculate_cpg_per_base s scale 50 =
      .ok ((List.range (cleanSeq s).length).map (specTrackValue (cleanSeq s) scale)) := by
  rcases hscale with h | h <;> subst h
  · simp only [calculate_cpg_per_base]
    rw [if_pos trivial]
    refine congrArg Except.ok ?_
    apply List.map_congr_left
    intro i hi
    rw [List.mem_range] at hi
    have hw : 0 < min (cleanSeq s).length (i + 50 / 2) - (i - 50 / 2) := by omega
    rw [specTrackValue]
    rw [if_neg (show ¬("linear" : String) = "log" by decide)]
    rw [if_pos hw]
  · simp only [calculate_cpg_per_base]
    rw [if_pos trivial]
    refine congrArg Except.ok ?_
    rw [List.map_map]
    apply List.map_congr_left
    intro i hi
    rw [List.mem_range] at hi
    have hw : 0 < min (cleanSeq s).length (i + 50 / 2) - (i - 50 / 2) := by omega
    simp only [Function.comp]
    rw [specTrackValue]
    simp [hw, epsilon]

/-- C6.  Under the track readout the output has exactly one value per base
position of the cleaned sequence, ordered by position, and the value at
position `i` is the `CG` count of the window `[i-25, i+25)` clipped to the
sequence bounds (counted on the clipped substring), divided by the clipped
window length and scaled by 100; under the `log` scale,
`log2(density + 1e-9)` is applied elementwise. -/
theorem c6_track_readout (sequence : String) (scale : String)
    (hscale : scale = "linear" ∨ scale = "log") :
    ∃ out, calculate_cpg_per_base sequence scale 50 = .ok out ∧
      out = (List.range (cleanSeq sequence).length).map (specTrackValue (cleanSeq sequence) scale) ∧
      out.length = (cleanSeq sequence).length := by
  refine ⟨_, calculate_cpg_per_base_eq_spec sequence scale hscale, rfl, ?_⟩
  simp

/-- Witness for C6 on a concrete sequence. -/
theorem c6_track_readout_witness :
    ∃ out, calculate_cpg_per_base "ACGT" "linear" 50 = .ok out ∧
      out = (List.range (cleanSeq "ACGT").length).map (specTrackValue (cleanSeq "ACGT") "linear") ∧
      out.length = (cleanSeq "ACGT").length :=
  c6_track_readout "ACGT" "linear" (Or.inl rfl)

/-! ## C4: flanking precedes trimming -/

lemma lookup_eq_none_of_not_mem {β : Type} {l : List (String × β)} {k : String}
    (h : k ∉ l.map Prod.fst) : l.lookup k = none := by
  induction l with
  | nil => rfl
  | cons kv rest ih =>
    have h1 : ¬(k = kv.1) := fun he => h (by simp [he])
    have h2 : k ∉ rest.map Prod.fst := fun hm => h (by simp [hm])
    have hbe : (k == kv.1) = false := beq_eq_false_iff_ne.mpr h1
    simp [List.lookup, hbe, ih h2]

lemma lookup_of_mem_nodup {β : Type} {l : List (String × β)}
    (hd : (l.map Prod.fst).Nodup) {kv : String × β} (hm : kv ∈ l) :
    l.lookup kv.1 = some kv.2 := by
  induction l with
  | nil => simp at hm
  | cons hd0 rest ih =>
    have hcons : (hd0.1 :: rest.map Prod.fst).Nodup := hd
    rcases List.mem_cons.mp hm with h | h
    · subst h
      simp [List.lookup]
    · have hne : ¬(kv.1 = hd0.1) := by
        intro he
        have : kv.1 ∈ rest.map Prod.fst := List.mem_map.mpr ⟨kv, h, rfl⟩
        rw [he] at this
        exact (List.nodup_cons.mp hcons).1 this
      have hbe : (kv.1 == hd0.1) = false := beq_eq_false_iff_ne.mpr hne
      simp only [List.lookup, hbe]
      exact ih (List.nodup_cons.mp hcons).2 h

lemma lookup_cons_self {β : Type} (k : String) (v : β) (rest : List (String × β)) :
    ((k, v) :: rest).lookup k = some v := by
  simp [List.lookup]

lemma lookup_cons_ne {β : Type} (k : String) (v : β) (rest : List (String × β))
    {q : String} (h : ¬(q = k)) : ((k, v) :: rest).lookup q = rest.lookup q := by
  have hbe : (q == k) = false := beq_eq_false_iff_ne.mpr h
  simp [List.lookup, hbe]

lemma empty_flank_append (s : String) : "" ++ s ++ "" = s := by simp

/-- The flank step rewrites every sequence to
`upstream ++ sequence ++ downstream` when the flanks are strings; when no
flank is present or both are empty the map is the identity, which the same
formula expresses since concatenation with `""` is neutral. -/
lemma applyFlanking_strings (p : Payload) (seqs0 : List (String × String)) (us ds : Option String)
    (hu : p.upstream_seq = us.map PVal.pstr) (hd : p.downstream_seq = ds.map PVal.pstr) :
    applyFlanking p seqs0 = seqs0.map (fun kv => (kv.1, us.getD "" ++ kv.2 ++ ds.getD "")) := by
  have hid : seqs0 = seqs0.map (fun kv => (kv.1, "" ++ kv.2 ++ "")) := by
    have hfun : (fun kv : String × String => (kv.1, "" ++ kv.2 ++ "")) = id := by
      funext kv
      show (kv.1, "" ++ kv.2 ++ "") = kv
      rw [empty_flank_append]
    rw [hfun, List.map_id]
  unfold applyFlanking
  rw [hu, hd]
  cases us with
  | none =>
    cases ds with
    | none => simpa using hid
    | some d =>
      by_cases hde : d = ""
      · subst hde
        simpa [PVal.truthy] using hid
      · have : (PVal.pstr d).truthy = true := by simp [PVal.truthy, hde]
        simp [this, pyStr]
  | some u =>
    cases ds with
    | none =>
      by_cases hue : u = ""
      · subst hue
        simpa [PVal.truthy] using hid
      · have : (PVal.pstr u).truthy = true := by simp [PVal.truthy, hue]
        simp [this, pyStr]
    | some d =>
      by_cases hue : u = ""
      · subst hue
        by_cases hde : d = ""
        · subst hde
          simpa [PVal.truthy] using hid
        · have : (PVal.pstr d).truthy = true := by simp [PVal.truthy, hde]
          simp [this, pyStr]
      · have : (PVal.pstr u).truthy = true := by simp [PVal.truthy, hue]
        simp [this, pyStr]

/-- The range-application loop computes exactly the claim's trim map over
any sequence map whose keys are unique. -/
lemma applyRangesLoop_eq_specTrim (ranges : List (String × PVal)) (seqs : List (String × String))
    (hdupR : (ranges.map Prod.fst).Nodup) (hdupS : (seqs.map Prod.fst).Nodup)
    (hwf : ∀ kv ∈ ranges, kv.2 = PVal.plist [] ∨ ∃ a b : Int, kv.2 = PVal.plist [.pint a, .pint b])
    (hkeys : ∀ kv ∈ ranges, kv.2.truthy → kv.1 ∈ seqs.map Prod.fst) :
    applyRangesLoop ranges seqs = .ok (specTrim ranges seqs) := by
  induction ranges generalizing seqs with
  | nil =>
    refine congrArg Except.ok ?_
    unfold specTrim
    have : (fun kv : String × String => (kv.1, kv.2)) = fun kv => kv := by
      funext kv
      rfl
    simp [List.lookup, this]
  | cons kv0 rest ih =>
    obtain ⟨k, v⟩ := kv0
    have hcons : (k :: rest.map Prod.fst).Nodup := hdupR
    have hknotin : k ∉ rest.map Prod.fst := (List.nodup_cons.mp hcons).1
    have hdupR' : (rest.map Prod.fst).Nodup := (List.nodup_cons.mp hcons).2
    rcases hwf (k, v) (List.mem_cons_self _ _) with hv | ⟨a, b, hv⟩ <;> subst hv
    · have hstep : applyRangesLoop ((k, PVal.plist []) :: rest) seqs = applyRangesLoop rest seqs := by
        simp [applyRangesLoop, PVal.truthy]
      rw [hstep, ih seqs hdupR' hdupS
        (fun kv hm => hwf kv (List.mem_cons_of_mem _ hm))
        (fun kv hm ht => hkeys kv (List.mem_cons_of_mem _ hm) ht)]
      refine congrArg Except.ok ?_
      unfold specTrim
      apply List.map_congr_left
      intro kv' _
      by_cases hk : kv'.1 = k
      · rw [hk, lookup_cons_self, lookup_eq_none_of_not_mem hknotin]
      · rw [lookup_cons_ne k _ rest hk]
    · have htr : (PVal.plist [.pint a, .pint b]).truthy = true := by simp [PVal.truthy]
      have hk : k ∈ seqs.map Prod.fst := hkeys (k, _) (List.mem_cons_self _ _) htr
      obtain ⟨s, hs⟩ := lookup_isSome_of_mem_keys hk
      have hdupS' : ((updateAssoc seqs k (pySliceStr s (some a) (b + 1))).map Prod.fst).Nodup := by
        rw [updateAssoc_keys]
        exact hdupS
      have hstep : applyRangesLoop ((k, PVal.plist [.pint a, .pint b]) :: rest) seqs =
          applyRangesLoop rest (updateAssoc seqs k (pySliceStr s (some a) (b + 1))) := by
        simp only [applyRangesLoop, pyUnpack2, pyAddOne, pySliceArg, PVal.toNum, hs]
        simp [PVal.truthy]
      rw [hstep, ih (updateAssoc seqs k (pySliceStr s (some a) (b + 1))) hdupR' hdupS'
        (fun kv hm => hwf kv (List.mem_cons_of_mem _ hm))
        (fun kv hm ht => by
          rw [updateAssoc_keys]
          exact hkeys kv (List.mem_cons_of_mem _ hm) ht)]
      refine congrArg Except.ok ?_
      unfold specTrim updateAssoc
      rw [List.map_map]
      apply List.map_congr_left
      intro kv' hm'
      simp only [Function.comp]
      by_cases hkk : kv'.1 = k
      · have hlook : seqs.lookup kv'.1 = some kv'.2 := lookup_of_mem_nodup hdupS hm'
        have hseq : kv'.2 = s := by
          rw [hkk] at hlook
          rw [hlook] at hs
          exact (Option.some.injEq _ _).mp hs
        rw [if_pos hkk]
        rw [lookup_eq_none_of_not_mem (by rw [hkk]; exact hknotin)]
        rw [hkk, lookup_cons_self]
        rw [hseq]
      · rw [if_neg hkk, lookup_cons_ne k _ rest hkk]

/-- Python's slice `f[a : b+1]` with non-negative bounds is the inclusive
slice `[a, b]`: drop `a` characters, keep the next `b + 1 - a`. -/
lemma drop_take_clip {α : Type} (l : List α) (x y : Nat) :
    (l.drop (min x l.length)).take (min y l.length - min x l.length) = (l.drop x).take (y - x) := by
  rcases le_total x l.length with hx | hx
  · rw [min_eq_left hx]
    rcases le_total y l.length with hy | hy
    · rw [min_eq_left hy]
    · rw [min_eq_right hy]
      rw [List.take_of_length_le (by simp), List.take_of_length_le (by simp; omega)]
  · rw [min_eq_right hx]
    rw [List.drop_length, List.drop_eq_nil_of_le hx]
    simp

lemma pySliceStr_inclusive (f : String) (a b : Int) (ha : 0 ≤ a) (hb : 0 ≤ b) :
    pySliceStr f (some a) (b + 1) = String.mk ((f.data.drop a.toNat).take (b.toNat + 1 - a.toNat)) := by
  simp only [pySliceStr, pySliceIdx]
  rw [if_neg (not_lt.mpr ha), if_neg (by omega : ¬(b + 1 < 0))]
  rw [show (b + 1).toNat = b.toNat + 1 by omega]
  exact congrArg String.mk (drop_take_clip f.data a.toNat (b.toNat + 1))

/-- C4.  `preprocess_data` first concatenates
`upstream ++ original ++ downstream` for every sequence (a no-op exactly
when both flank strings resolve to `""`), and only afterwards replaces
each sequence whose id carries a two-integer range with the slice
`[start : end+1]` of the *already-flanked* sequence, leaving empty-list
ranges untouched; with non-negative bounds that slice is the inclusive
slice `[start, end]`. -/
theorem c4_flank_then_trim (p : Payload) (us ds : Option String)
    (seqs : List (String × String)) (ranges : List (String × PVal))
    (hu : p.upstream_seq = us.map PVal.pstr)
    (hd : p.downstream_seq = ds.map PVal.pstr)
    (hs : p.sequences = some seqs)
    (hr : p.prediction_ranges = some ranges)
    (hdupR : (ranges.map Prod.fst).Nodup)
    (hdupS : (seqs.map Prod.fst).Nodup)
    (hwf : ∀ kv ∈ ranges, kv.2 = PVal.plist [] ∨ ∃ a b : Int, kv.2 = PVal.plist [.pint a, .pint b])
    (hkeys : ∀ kv ∈ ranges, kv.2.truthy → kv.1 ∈ seqs.map Prod.fst) :
    (∀ res, preprocess_data p = .ok res →
      res = specTrim ranges (seqs.map (fun kv => (kv.1, us.getD "" ++ kv.2 ++ ds.getD "")))) ∧
    (∀ (f : String) (a b : Int), 0 ≤ a → 0 ≤ b →
      pySliceStr f (some a) (b + 1) = String.mk ((f.data.drop a.toNat).take (b.toNat + 1 - a.toNat))) := by
  refine ⟨?_, fun f a b ha hb => pySliceStr_inclusive f a b ha hb⟩
  intro res hres
  have hkeysF : (seqs.map (fun kv => (kv.1, us.getD "" ++ kv.2 ++ ds.getD ""))).map Prod.fst =
      seqs.map Prod.fst := by
    rw [List.map_map]
    apply List.map_congr_left
    intro kv _
    rfl
  have hdupF : ((seqs.map (fun kv => (kv.1, us.getD "" ++ kv.2 ++ ds.getD ""))).map Prod.fst).Nodup := by
    rw [hkeysF]
    exact hdupS
  have htrim := applyRangesLoop_eq_specTrim ranges
    (seqs.map (fun kv => (kv.1, us.getD "" ++ kv.2 ++ ds.getD ""))) hdupR hdupF hwf
    (fun kv hm ht => by
      rw [hkeysF]
      exact hkeys kv hm ht)
  unfold preprocess_data at hres
  rw [hs] at hres
  simp only [Option.getD_some] at hres
  rw [applyFlanking_strings p seqs us ds hu hd] at hres
  rw [hr] at hres
  simp only [htrim, liftRT] at hres
  cases hrd : p.readout with
  | none =>
    rw [hrd] at hres
    simp at hres
  | some r =>
    rw [hrd] at hres
    cases hb : pvalInStrs r ["point", "track"] with
    | false =>
      simp [hb] at hres
    | true =>
      simp only [hb, Bool.not_true, Bool.false_eq_true, if_false] at hres
      split at hres
      · exact absurd hres (by simp)
      · exact ((Except.ok.injEq _ _).mp hres).symm

/-- Witness for C4 on the claim's example: upstream `"CG"`, sequence
`"AT"`, no downstream, range `[0, 1]`; the result is the first two bases
`"CG"` of the flanked `"CGAT"`, not the untrimmed-then-flanked value. -/
theorem c4_flank_then_trim_witness :
    preprocess_data ⟨some (.pstr "point"), some [], some [("s1", "AT")],
        some [("s1", PVal.plist [.pint 0, .pint 1])], some (.pstr "CG"), none⟩ =
      .ok [("s1", "CG")] ∧
    (∀ res, preprocess_data ⟨some (.pstr "point"), some [], some [("s1", "AT")],
        some [("s1", PVal.plist [.pint 0, .pint 1])], some (.pstr "CG"), none⟩ = .ok res →
      res = specTrim [("s1", PVal.plist [.pint 0, .pint 1])]
        ([("s1", "AT")].map (fun kv => (kv.1, (some "CG").getD "" ++ kv.2 ++ (none : Option String).getD "")))) := by
  refine ⟨by rfl, ?_⟩
  exact (c4_flank_then_trim
    ⟨some (.pstr "point"), some [], some [("s1", "AT")],
        some [("s1", PVal.plist [.pint 0, .pint 1])], some (.pstr "CG"), none⟩
    (some "CG") none [("s1", "AT")] [("s1", PVal.plist [.pint 0, .pint 1])]
    rfl rfl rfl rfl (by simp) (by simp)
    (fun kv hm => by
      rcases List.mem_singleton.mp hm with rfl
      exact Or.inr ⟨0, 1, rfl⟩)
    (fun kv hm ht => by
      rcases List.mem_singleton.mp hm with rfl
      simp)).1

/-! ## Accumulation lemmas for the third validation stage -/

lemma mandatory_present (p : Payload) (h : check_mandatory_keys p.keys [] = []) :
    p.readout.isSome ∧ p.prediction_tasks.isSome ∧ p.sequences.isSome := by
  unfold check_mandatory_keys at h
  have h' : (if pySorted (mandatory_keys.filter (fun k => !p.keys.contains k)) ≠ [] then
      ([] : List String) ++
        [msg_missing_mandatory (pySorted (mandatory_keys.filter (fun k => !p.keys.contains k)))]
    else []) = [] := h
  clear h
  split at h'
  · simp at h'
  · rename_i hm
    rw [not_not, pySorted_eq_nil_iff, List.filter_eq_nil_iff] at hm
    refine ⟨?_, ?_, ?_⟩
    · have := hm "readout" (by simp [mandatory_keys])
      simpa [mem_keys_readout, Option.isSome_iff_ne_none] using this
    · have := hm "prediction_tasks" (by simp [mandatory_keys])
      simpa [mem_keys_prediction_tasks, Option.isSome_iff_ne_none] using this
    · have := hm "sequences" (by simp [mandatory_keys])
      simpa [mem_keys_sequences, Option.isSome_iff_ne_none] using this

lemma task_keys_name (t : Task) : "name" ∈ t.keys ↔ t.name.isSome := by
  rcases t with ⟨n, ty, ct, sp, sc⟩
  cases n <;> cases ty <;> cases ct <;> cases sp <;> cases sc <;> simp [Task.keys]

lemma task_keys_type (t : Task) : "type" ∈ t.keys ↔ t.type.isSome := by
  rcases t with ⟨n, ty, ct, sp, sc⟩
  cases n <;> cases ty <;> cases ct <;> cases sp <;> cases sc <;> simp [Task.keys]

lemma task_keys_cell_type (t : Task) : "cell_type" ∈ t.keys ↔ t.cell_type.isSome := by
  rcases t with ⟨n, ty, ct, sp, sc⟩
  cases n <;> cases ty <;> cases ct <;> cases sp <;> cases sc <;> simp [Task.keys]

lemma task_keys_species (t : Task) : "species" ∈ t.keys ↔ t.species.isSome := by
  rcases t with ⟨n, ty, ct, sp, sc⟩
  cases n <;> cases ty <;> cases ct <;> cases sp <;> cases sc <;> simp [Task.keys]

lemma check_task_keys_from_append (tasks : List Task) :
    ∀ (i : Nat) (acc : List String),
      check_task_keys_from i tasks acc = acc ++ check_task_keys_from i tasks [] := by
  induction tasks with
  | nil => intro i acc; simp [check_task_keys_from]
  | cons t rest ih =>
    intro i acc
    simp only [check_task_keys_from]
    by_cases hm : pySorted (task_mandatory_keys.filter (fun k => !t.keys.contains k)) ≠ []
    · rw [if_pos hm, if_pos hm]
      rw [ih (i + 1) (acc ++ _), ih (i + 1) ([] ++ _)]
      simp
    · rw [if_neg hm, if_neg hm]
      exact ih (i + 1) acc

lemma tasksComplete_of_stage2 (tasks : List Task)
    (h : check_prediction_task_mandatory_keys tasks [] = []) : tasksComplete tasks := by
  unfold check_prediction_task_mandatory_keys at h
  intro t ht
  have key : ∀ (i : Nat) (ts : List Task), check_task_keys_from i ts [] = [] → t ∈ ts →
      pySorted (task_mandatory_keys.filter (fun k => !t.keys.contains k)) = [] := by
    intro i ts
    induction ts generalizing i with
    | nil => intro _ hmem; simp at hmem
    | cons t0 rest ih =>
      intro hz hmem
      simp only [check_task_keys_from] at hz
      rw [check_task_keys_from_append] at hz
      rcases List.mem_cons.mp hmem with rfl | hmem'
      · by_cases hm : pySorted (task_mandatory_keys.filter (fun k => !t.keys.contains k)) ≠ []
        · rw [if_pos hm] at hz
          simp at hz
        · rw [not_not] at hm
          exact hm
      · by_cases hm : pySorted (task_mandatory_keys.filter (fun k => !t0.keys.contains k)) ≠ []
        · rw [if_pos hm] at hz
          simp at hz
        · rw [if_neg hm] at hz
          simp only [List.nil_append] at hz
          exact ih (i + 1) hz hmem'
  have hz := key 0 tasks h ht
  rw [pySorted_eq_nil_iff, List.filter_eq_nil_iff] at hz
  have hname := hz "name" (by simp [task_mandatory_keys])
  have htype := hz "type" (by simp [task_mandatory_keys])
  have hcell := hz "cell_type" (by simp [task_mandatory_keys])
  have hspec := hz "species" (by simp [task_mandatory_keys])
  refine ⟨?_, ?_, ?_, ?_⟩
  · rw [← task_keys_name]
    simpa using hname
  · rw [← task_keys_type]
    simpa using htype
  · rw [← task_keys_cell_type]
    simpa using hcell
  · rw [← task_keys_species]
    simpa using hspec

lemma check_key_values_readout_append (v : PVal) (acc : List String) :
    check_key_values_readout v acc = acc ++ check_key_values_readout v [] := by
  unfold check_key_values_readout
  rcases h1 : pvalInStrs v ["point", "track", "interaction_matrix"] with _ | _ <;>
    rcases h2 : v.isStr with _ | _ <;>
    rcases h3 : v.isList with _ | _ <;>
    simp [h1, h2, h3]

lemma check_seq_ids_append (ranges : List (String × PVal)) (seqs : List (String × String))
    (acc : List String) : check_seq_ids ranges seqs acc = acc ++ check_seq_ids ranges seqs [] := by
  unfold check_seq_ids
  split <;> simp

lemma check_key_values_upstream_flank_append (v : PVal) (acc : List String) :
    check_key_values_upstream_flank v acc = acc ++ check_key_values_upstream_flank v [] := by
  cases v <;> simp [check_key_values_upstream_flank]

lemma check_key_values_downstream_flank_append (v : PVal) (acc : List String) :
    check_key_values_downstream_flank v acc = acc ++ check_key_values_downstream_flank v [] := by
  cases v <;> simp [check_key_values_downstream_flank]

lemma run_flank_checks_append (p : Payload) (acc : List String) :
    run_flank_checks p acc = acc ++ flankMsgs p := by
  unfold run_flank_checks flankMsgs
  cases p.upstream_seq with
  | none =>
    cases p.downstream_seq with
    | none =>
      show acc = acc ++ ([] ++ [])
      simp
    | some d =>
      show check_key_values_downstream_flank d acc = acc ++ ([] ++ check_key_values_downstream_flank d [])
      rw [check_key_values_downstream_flank_append d acc]
      simp
  | some u =>
    cases p.downstream_seq with
    | none =>
      show check_key_values_upstream_flank u acc = acc ++ (check_key_values_upstream_flank u [] ++ [])
      rw [check_key_values_upstream_flank_append u acc]
      simp
    | some d =>
      show check_key_values_downstream_flank d (check_key_values_upstream_flank u acc) =
        acc ++ (check_key_values_upstream_flank u [] ++ check_key_values_downstream_flank d [])
      rw [check_key_values_upstream_flank_append u acc]
      rw [check_key_values_downstream_flank_append d (acc ++ check_key_values_upstream_flank u [])]
      simp

lemma check_prediction_task_name_ok (tasks : List Task) (h : ∀ t ∈ tasks, t.name.isSome) :
    ∃ m, (∀ acc, check_prediction_task_name tasks acc = .ok (acc ++ m)) := by
  induction tasks with
  | nil => exact ⟨[], fun acc => by simp [check_prediction_task_name]⟩
  | cons t rest ih =>
    obtain ⟨v, hv⟩ := Option.isSome_iff_exists.mp (h t (List.mem_cons_self _ _))
    obtain ⟨m, hm⟩ := ih (fun t' ht' => h t' (List.mem_cons_of_mem _ ht'))
    refine ⟨((if v.isList then [msg_name_one_value] else []) ++
      (if v.isStr then [] else [msg_name_not_string])) ++ m, fun acc => ?_⟩
    simp only [check_prediction_task_name, hv]
    rw [hm]
    rcases h1 : v.isList with _ | _ <;> rcases h2 : v.isStr with _ | _ <;> simp [h1, h2]

lemma check_prediction_task_type_ok (tasks : List Task) (h : ∀ t ∈ tasks, t.type.isSome) :
    ∃ m, (∀ acc, check_prediction_task_type tasks acc = .ok (acc ++ m)) := by
  induction tasks with
  | nil => exact ⟨[], fun acc => by simp [check_prediction_task_type]⟩
  | cons t rest ih =>
    obtain ⟨v, hv⟩ := Option.isSome_iff_exists.mp (h t (List.mem_cons_self _ _))
    obtain ⟨m, hm⟩ := ih (fun t' ht' => h t' (List.mem_cons_of_mem _ ht'))
    refine ⟨(match v with
      | .plist _ => [msg_type_one_value]
      | .pstr s =>
        if prediction_task_options.contains s || typeHasKnownStart s then []
        else [msg_type_unrecognized (.pstr s)]
      | _ => [msg_type_not_string]) ++ m, fun acc => ?_⟩
    simp only [check_prediction_task_type, hv]
    rw [hm]
    rcases v with s | n | b | _ | xs
    · by_cases hopt : s ∈ prediction_task_options ∨ typeHasKnownStart s = true <;> simp [hopt]
    · simp
    · simp
    · simp
    · simp

lemma check_prediction_task_cell_type_ok (tasks : List Task) (h : ∀ t ∈ tasks, t.cell_type.isSome) :
    ∃ m, (∀ acc, check_prediction_task_cell_type tasks acc = .ok (acc ++ m)) := by
  induction tasks with
  | nil => exact ⟨[], fun acc => by simp [check_prediction_task_cell_type]⟩
  | cons t rest ih =>
    obtain ⟨v, hv⟩ := Option.isSome_iff_exists.mp (h t (List.mem_cons_self _ _))
    obtain ⟨m, hm⟩ := ih (fun t' ht' => h t' (List.mem_cons_of_mem _ ht'))
    refine ⟨(match v with
      | .plist _ => [msg_cell_type_one_value]
      | .pstr _ => []
      | _ => [msg_cell_type_not_string]) ++ m, fun acc => ?_⟩
    simp only [check_prediction_task_cell_type, hv]
    rw [hm]
    rcases v with s | n | b | _ | xs <;> simp [PVal.isList, PVal.isStr]

lemma check_prediction_task_species_ok (tasks : List Task) (h : ∀ t ∈ tasks, t.species.isSome) :
    ∃ m, (∀ acc, check_prediction_task_species tasks acc = .ok (acc ++ m)) := by
  induction tasks with
  | nil => exact ⟨[], fun acc => by simp [check_prediction_task_species]⟩
  | cons t rest ih =>
    obtain ⟨v, hv⟩ := Option.isSome_iff_exists.mp (h t (List.mem_cons_self _ _))
    obtain ⟨m, hm⟩ := ih (fun t' ht' => h t' (List.mem_cons_of_mem _ ht'))
    refine ⟨(match v with
      | .plist _ => [msg_species_one_value]
      | .pstr _ => []
      | _ => [msg_species_not_string]) ++ m, fun acc => ?_⟩
    simp only [check_prediction_task_species, hv]
    rw [hm]
    rcases v with s | n | b | _ | xs <;> simp [PVal.isList, PVal.isStr]

lemma check_prediction_task_scale_append (tasks : List Task) :
    ∀ acc, check_prediction_task_scale tasks acc = acc ++ check_prediction_task_scale tasks [] := by
  induction tasks with
  | nil => intro acc; simp [check_prediction_task_scale]
  | cons t rest ih =>
    intro acc
    simp only [check_prediction_task_scale]
    cases hsc : t.scale with
    | none => exact ih acc
    | some v =>
      rcases v with s | n | b | _ | xs
      · by_cases hopt : pvalInStrs (PVal.pstr s) prediction_scale_options
        · simp only [PVal.isList, PVal.isStr, hopt, if_true, if_false, Bool.false_eq_true]
          exact ih acc
        · simp only [PVal.isList, PVal.isStr, hopt, if_true, if_false, Bool.false_eq_true]
          rw [ih (acc ++ [msg_scale_unrecognized]), ih ([] ++ [msg_scale_unrecognized])]
          simp
      · have hopt : pvalInStrs (PVal.pint n) prediction_scale_options = false := rfl
        simp only [PVal.isList, PVal.isStr, hopt, Bool.false_eq_true, if_false]
        rw [ih (acc ++ _ ++ _), ih ([] ++ _ ++ _)]
        simp
      · have hopt : pvalInStrs (PVal.pbool b) prediction_scale_options = false := rfl
        simp only [PVal.isList, PVal.isStr, hopt, Bool.false_eq_true, if_false]
        rw [ih (acc ++ _ ++ _), ih ([] ++ _ ++ _)]
        simp
      · have hopt : pvalInStrs PVal.pnone prediction_scale_options = false := rfl
        simp only [PVal.isList, PVal.isStr, hopt, Bool.false_eq_true, if_false]
        rw [ih (acc ++ _ ++ _), ih ([] ++ _ ++ _)]
        simp
      · simp only [PVal.isList, if_true]
        rw [ih (acc ++ [msg_scale_one_value]), ih ([] ++ [msg_scale_one_value])]
        simp

/-- Under stage-2 completeness the five per-task field checks accumulate
each check's fresh messages onto the incoming accumulator. -/
lemma run_task_field_checks_ok (tasks : List Task) (hc : tasksComplete tasks) :
    ∀ acc, run_task_field_checks tasks acc =
      .ok (acc ++ (okMsgs (check_prediction_task_name tasks []) ++
        okMsgs (check_prediction_task_type tasks []) ++
        okMsgs (check_prediction_task_cell_type tasks []) ++
        okMsgs (check_prediction_task_species tasks []) ++
        check_prediction_task_scale tasks [])) := by
  obtain ⟨m1, h1⟩ := check_prediction_task_name_ok tasks (fun t ht => (hc t ht).1)
  obtain ⟨m2, h2⟩ := check_prediction_task_type_ok tasks (fun t ht => (hc t ht).2.1)
  obtain ⟨m3, h3⟩ := check_prediction_task_cell_type_ok tasks (fun t ht => (hc t ht).2.2.1)
  obtain ⟨m4, h4⟩ := check_prediction_task_species_ok tasks (fun t ht => (hc t ht).2.2.2)
  intro acc
  have e1 : okMsgs (check_prediction_task_name tasks []) = m1 := by
    simp [okMsgs, h1 [], Except.toOption]
  have e2 : okMsgs (check_prediction_task_type tasks []) = m2 := by
    simp [okMsgs, h2 [], Except.toOption]
  have e3 : okMsgs (check_prediction_task_cell_type tasks []) = m3 := by
    simp [okMsgs, h3 [], Except.toOption]
  have e4 : okMsgs (check_prediction_task_species tasks []) = m4 := by
    simp [okMsgs, h4 [], Except.toOption]
  unfold run_task_field_checks
  simp only [h1, h2, h3, h4]
  rw [check_prediction_task_scale_append tasks]
  simp [okMsgs, Except.toOption, List.append_assoc]

lemma bool_or_short (x : Bool) (q : Prop) [Decidable q] :
    (if x = true then Except.ok true else (Except.ok (decide q) : Except String Bool)) =
      Except.ok (x || decide q) := by
  cases x <;> simp

lemma check_pr_entry_empty (k : String) (seqs : List (String × String)) (acc : List String) :
    check_pr_entry k (.plist []) seqs acc = .ok acc := rfl

/-- The loop body of `check_prediction_ranges` on a list value whose first
two elements are integers accumulates exactly `prEntryMsgs`. -/
lemma check_pr_entry_int2 (k : String) (a b : Int) (rest : List PVal)
    (seqs : List (String × String)) (acc : List String) :
    check_pr_entry k (.plist (.pint a :: .pint b :: rest)) seqs acc =
      .ok (acc ++ prEntryMsgs k a b rest seqs) := by
  have hlen2 : (rest.length + 1 + 1 = 2) ↔ rest = [] := by
    cases rest with
    | nil => simp
    | cons c cs =>
      simp only [List.length_cons]
      constructor
      · intro h
        omega
      · intro h
        exact absurd h (by simp)
  simp only [check_pr_entry, PVal.isList, if_true, PVal.truthy, List.isEmpty_cons,
    Bool.not_false, Bool.not_true, pyLen, List.length_cons, pyElems, List.all_cons,
    PVal.isIntLike, Bool.true_and, pyIndex, List.getElem?_cons_zero, List.getElem?_cons_succ,
    pyLtVal, pyGtVal, pyGeVal, PVal.toNum, bool_or_short]
  by_cases hrest : rest = [] <;>
    by_cases hall : rest.all PVal.isIntLike = true <;>
    by_cases hneg : a < 0 ∨ b < 0 <;>
    by_cases hlt : b < a <;>
    by_cases hoob : ((((seqs.lookup k).getD "").length : Int) ≤ a ∨
      (((seqs.lookup k).getD "").length : Int) ≤ b) <;>
    by_cases hL : ((seqs.lookup k).getD "").length = 0 <;>
    simp [prEntryMsgs, hlen2, hrest, hall, hneg, hlt, hoob, hL, List.append_assoc] <;>
    (try (split <;> simp))

/-- Over range values that cannot raise, `check_prediction_ranges`
accumulates exactly `rangesMsgs` onto the incoming list. -/
lemma check_prediction_ranges_ok (ranges : List (String × PVal)) (seqs : List (String × String))
    (hsafe : ∀ kv ∈ ranges, rangeValueSafe kv.2) :
    ∀ acc, check_prediction_ranges ranges seqs acc = .ok (acc ++ rangesMsgs ranges seqs) := by
  induction ranges with
  | nil =>
    intro acc
    simp [check_prediction_ranges, rangesMsgs]
  | cons kv rest ih =>
    intro acc
    obtain ⟨k, v⟩ := kv
    have hrest : ∀ kv ∈ rest, rangeValueSafe kv.2 :=
      fun kv hm => hsafe kv (List.mem_cons_of_mem _ hm)
    rcases hsafe (k, v) (List.mem_cons_self _ _) with hv | ⟨a, b, r, hv⟩ <;> subst hv
    · rw [show check_prediction_ranges ((k, PVal.plist []) :: rest) seqs acc =
          check_prediction_ranges rest seqs acc from rfl, ih hrest acc]
      simp [rangesMsgs]
    · simp only [check_prediction_ranges, check_pr_entry_int2, ih hrest]
      simp [rangesMsgs, List.append_assoc]

/-- Under a present `sequences` key and safe range values, the conditional
`prediction_ranges` block accumulates exactly `rangesStageMsgs`. -/
lemma run_ranges_checks_ok (p : Payload)
    (hseq : p.sequences.isSome)
    (hsafe : ∀ ranges, p.prediction_ranges = some ranges → ∀ kv ∈ ranges, rangeValueSafe kv.2) :
    ∀ acc, run_ranges_checks p acc = .ok (acc ++ rangesStageMsgs p) := by
  intro acc
  cases hpr : p.prediction_ranges with
  | none => simp [run_ranges_checks, rangesStageMsgs, hpr]
  | some ranges =>
    obtain ⟨seqs, hps⟩ := Option.isSome_iff_exists.mp hseq
    have hcr := check_prediction_ranges_ok ranges seqs (hsafe ranges hpr)
    simp only [run_ranges_checks, rangesStageMsgs, hpr, hps]
    rw [check_seq_ids_append, hcr]
    simp [liftRT, List.append_assoc]

/-- Master characterization of the third validation stage: once both
key-presence stages pass and every range value is safe,
`validate_request_payload` succeeds exactly when no stage-3 check produced a
message, and otherwise raises one `BadRequestError` carrying all of them. -/
lemma validate_stage3_characterization (p : Payload) (tasks : List Task) (r : PVal)
    (h1 : check_mandatory_keys p.keys [] = [])
    (ht : p.prediction_tasks = some tasks)
    (h2 : check_prediction_task_mandatory_keys tasks [] = [])
    (hr : p.readout = some r)
    (hsafe : ∀ ranges, p.prediction_ranges = some ranges → ∀ kv ∈ ranges, rangeValueSafe kv.2) :
    validate_request_payload p =
      if stage3Msgs p tasks r = [] then .ok ()
      else .error (.api (BadRequestError (.ofList (stage3Msgs p tasks r)))) := by
  have hc := tasksComplete_of_stage2 tasks h2
  have hrtc := run_task_field_checks_ok tasks hc
  have hrrc := run_ranges_checks_ok p (mandatory_present p h1).2.2 hsafe
  simp only [validate_request_payload, h1, ht, h2, hr]
  rw [check_key_values_readout_append]
  simp only [hrtc, liftRT, hrrc]
  rw [run_flank_checks_append]
  have hkey : ([] ++ check_key_values_readout r [] ++
      (okMsgs (check_prediction_task_name tasks []) ++
        okMsgs (check_prediction_task_type tasks []) ++
        okMsgs (check_prediction_task_cell_type tasks []) ++
        okMsgs (check_prediction_task_species tasks []) ++
        check_prediction_task_scale tasks []) ++
      rangesStageMsgs p ++ flankMsgs p) = stage3Msgs p tasks r := by
    simp [stage3Msgs, List.append_assoc]
  rw [hkey]
  by_cases hm : stage3Msgs p tasks r = [] <;> simp [hm]

/-- Counterexample to C2 as stated: this payload passes both key-presence
stages and has a readout violation to accumulate, yet a one-element range
list makes `value[1]` raise an IndexError, so validation aborts with a
runtime error instead of a 400 carrying the accumulated messages. -/
theorem c2_counterexample_range_crash :
    check_mandatory_keys (Payload.keys ⟨some (.pstr "weird"),
        some [⟨some (.pstr "n"), some (.pstr "accessibility"), some (.pstr "c"),
          some (.pstr "s"), none⟩],
        some [("s1", "ACGT")], some [("s1", PVal.plist [.pint 3])], none, none⟩) [] = [] ∧
    check_prediction_task_mandatory_keys
      [⟨some (.pstr "n"), some (.pstr "accessibility"), some (.pstr "c"),
        some (.pstr "s"), none⟩] [] = [] ∧
    check_key_values_readout (.pstr "weird") [] = [msg_readout_unrecognized] ∧
    validate_request_payload ⟨some (.pstr "weird"),
        some [⟨some (.pstr "n"), some (.pstr "accessibility"), some (.pstr "c"),
          some (.pstr "s"), none⟩],
        some [("s1", "ACGT")], some [("s1", PVal.plist [.pint 3])], none, none⟩ =
      .error (.runtime "IndexError: list index out of range") ∧
    (∀ m, validate_request_payload ⟨some (.pstr "weird"),
        some [⟨some (.pstr "n"), some (.pstr "accessibility"), some (.pstr "c"),
          some (.pstr "s"), none⟩],
        some [("s1", "ACGT")], some [("s1", PVal.plist [.pint 3])], none, none⟩ ≠
      .error (.api (BadRequestError m))) := by
  refine ⟨rfl, rfl, rfl, rfl, ?_⟩
  intro m hcontra
  rw [show validate_request_payload ⟨some (.pstr "weird"),
        some [⟨some (.pstr "n"), some (.pstr "accessibility"), some (.pstr "c"),
          some (.pstr "s"), none⟩],
        some [("s1", "ACGT")], some [("s1", PVal.plist [.pint 3])], none, none⟩ =
      .error (.runtime "IndexError: list index out of range") from rfl] at hcontra
  simp at hcontra

/-- C2 (amended): for every payload that passes the two key-presence
stages, whose range values (if any) cannot raise, and that violates at
least one remaining check, `validate_request_payload` runs every remaining
check and raises a single 400 `BadRequestError` carrying the concatenation
of all accumulated stage-3 messages, never only the first violation. -/
theorem c2_amended_accumulate_union (p : Payload) (tasks : List Task) (r : PVal)
    (h1 : check_mandatory_keys p.keys [] = [])
    (ht : p.prediction_tasks = some tasks)
    (h2 : check_prediction_task_mandatory_keys tasks [] = [])
    (hr : p.readout = some r)
    (hsafe : ∀ ranges, p.prediction_ranges = some ranges → ∀ kv ∈ ranges, rangeValueSafe kv.2)
    (hviol : stage3Msgs p tasks r ≠ []) :
    validate_request_payload p =
      .error (.api (BadRequestError (.ofList (stage3Msgs p tasks r)))) ∧
    (BadRequestError (.ofList (stage3Msgs p tasks r))).status_code = 400 := by
  refine ⟨?_, rfl⟩
  rw [validate_stage3_characterization p tasks r h1 ht h2 hr hsafe, if_neg hviol]

/-- Witness for the amended C2: a payload with two independent violations
(unrecognized readout and a list-valued upstream flank) yields one 400
carrying both messages. -/
theorem c2_amended_accumulate_union_witness :
    validate_request_payload ⟨some (.pstr "weird"),
        some [⟨some (.pstr "n"), some (.pstr "accessibility"), some (.pstr "c"),
          some (.pstr "s"), none⟩],
        some [("s1", "ACGT")], none, some (.plist []), none⟩ =
      .error (.api (BadRequestError (.ofList (stage3Msgs
        ⟨some (.pstr "weird"),
          some [⟨some (.pstr "n"), some (.pstr "accessibility"), some (.pstr "c"),
            some (.pstr "s"), none⟩],
          some [("s1", "ACGT")], none, some (.plist []), none⟩
        [⟨some (.pstr "n"), some (.pstr "accessibility"), some (.pstr "c"),
          some (.pstr "s"), none⟩]
        (.pstr "weird"))))) ∧
    stage3Msgs ⟨some (.pstr "weird"),
        some [⟨some (.pstr "n"), some (.pstr "accessibility"), some (.pstr "c"),
          some (.pstr "s"), none⟩],
        some [("s1", "ACGT")], none, some (.plist []), none⟩
      [⟨some (.pstr "n"), some (.pstr "accessibility"), some (.pstr "c"),
        some (.pstr "s"), none⟩]
      (.pstr "weird") = [msg_readout_unrecognized, msg_upstream_one_value] :=
  ⟨(c2_amended_accumulate_union
      ⟨some (.pstr "weird"),
        some [⟨some (.pstr "n"), some (.pstr "accessibility"), some (.pstr "c"),
          some (.pstr "s"), none⟩],
        some [("s1", "ACGT")], none, some (.plist []), none⟩
      [⟨some (.pstr "n"), some (.pstr "accessibility"), some (.pstr "c"),
        some (.pstr "s"), none⟩]
      (.pstr "weird") rfl rfl rfl rfl
      (fun _ hpr => Option.noConfusion hpr) (by decide)).1, rfl⟩

lemma mem_rangesMsgs_of_entry {ranges : List (String × PVal)} {seqs : List (String × String)}
    {k : String} {a b : Int} {rest : List PVal}
    (hmem : (k, PVal.plist (.pint a :: .pint b :: rest)) ∈ ranges)
    {x : String} (hx : x ∈ prEntryMsgs k a b rest seqs) :
    x ∈ rangesMsgs ranges seqs := by
  unfold rangesMsgs
  rw [List.mem_flatten]
  exact ⟨prEntryMsgs k a b rest seqs,
    List.mem_map.mpr ⟨(k, PVal.plist (.pint a :: .pint b :: rest)), hmem, rfl⟩, hx⟩

lemma mem_stage3Msgs_of_rangesMsgs (p : Payload) (tasks : List Task) (r : PVal)
    {ranges : List (String × PVal)} {seqs : List (String × String)}
    (hpr : p.prediction_ranges = some ranges) (hps : p.sequences = some seqs)
    {x : String} (hx : x ∈ rangesMsgs ranges seqs) : x ∈ stage3Msgs p tasks r := by
  simp only [stage3Msgs, rangesStageMsgs, hpr, hps, List.mem_append]
  tauto

/-- C3 (amended): for a payload that passes both key-presence stages, whose
range values are all lists led by two integers when non-empty, and that
contains a range entry violating at least one of the conditions (exactly 2
elements, all integers, non-negative, start ≤ end, both below the sequence
length), validation fails with a single 400 whose message list contains one
message per violated condition, with the empty-sequence message
distinguished from the out-of-bounds one. -/
theorem c3_amended_range_value_checks (p : Payload) (tasks : List Task) (r : PVal)
    (ranges : List (String × PVal)) (seqs : List (String × String))
    (k : String) (a b : Int) (rest : List PVal)
    (h1 : check_mandatory_keys p.keys [] = [])
    (ht : p.prediction_tasks = some tasks)
    (h2 : check_prediction_task_mandatory_keys tasks [] = [])
    (hr : p.readout = some r)
    (hpr : p.prediction_ranges = some ranges)
    (hps : p.sequences = some seqs)
    (hsafe : ∀ kv ∈ ranges, rangeValueSafe kv.2)
    (hmem : (k, PVal.plist (.pint a :: .pint b :: rest)) ∈ ranges)
    (hviol : rest ≠ [] ∨ rest.all PVal.isIntLike = false ∨ a < 0 ∨ b < 0 ∨ a > b ∨
      a ≥ ((((seqs.lookup k).getD "").length : Int)) ∨
      b ≥ ((((seqs.lookup k).getD "").length : Int))) :
    ∃ msgs, validate_request_payload p = .error (.api (BadRequestError (.ofList msgs))) ∧
      (BadRequestError (.ofList msgs)).status_code = 400 ∧
      (rest ≠ [] → msg_pr_two_elements k ∈ msgs) ∧
      (rest.all PVal.isIntLike = false → msg_pr_integers k ∈ msgs) ∧
      (a < 0 ∨ b < 0 → msg_pr_negative k (.pint a) (.pint b) ∈ msgs) ∧
      (a > b → msg_pr_start_end k (.pint a) (.pint b) ∈ msgs) ∧
      (a ≥ ((((seqs.lookup k).getD "").length : Int)) ∨
       b ≥ ((((seqs.lookup k).getD "").length : Int)) →
        (((seqs.lookup k).getD "").length = 0 → msg_pr_empty_seq k ∈ msgs) ∧
        (((seqs.lookup k).getD "").length ≠ 0 →
          msg_pr_out_of_bounds k ((seqs.lookup k).getD "").length ∈ msgs)) := by
  have hsafe' : ∀ rs, p.prediction_ranges = some rs → ∀ kv ∈ rs, rangeValueSafe kv.2 := by
    intro rs hrs
    rw [hpr, Option.some.injEq] at hrs
    subst hrs
    exact hsafe
  have hlift : ∀ x, x ∈ prEntryMsgs k a b rest seqs → x ∈ stage3Msgs p tasks r :=
    fun x hx => mem_stage3Msgs_of_rangesMsgs p tasks r hpr hps (mem_rangesMsgs_of_entry hmem hx)
  have hm1 : rest ≠ [] → msg_pr_two_elements k ∈ prEntryMsgs k a b rest seqs := by
    intro h
    simp [prEntryMsgs, List.isEmpty_iff, h]
  have hm2 : rest.all PVal.isIntLike = false → msg_pr_integers k ∈ prEntryMsgs k a b rest seqs := by
    intro h
    simp [prEntryMsgs, h]
  have hm3 : a < 0 ∨ b < 0 → msg_pr_negative k (.pint a) (.pint b) ∈ prEntryMsgs k a b rest seqs := by
    intro h
    simp [prEntryMsgs, h]
  have hm4 : a > b → msg_pr_start_end k (.pint a) (.pint b) ∈ prEntryMsgs k a b rest seqs := by
    intro h
    simp [prEntryMsgs, h]
  have hm5 : a ≥ ((((seqs.lookup k).getD "").length : Int)) ∨
      b ≥ ((((seqs.lookup k).getD "").length : Int)) →
      (((seqs.lookup k).getD "").length = 0 → msg_pr_empty_seq k ∈ prEntryMsgs k a b rest seqs) ∧
      (((seqs.lookup k).getD "").length ≠ 0 →
        msg_pr_out_of_bounds k ((seqs.lookup k).getD "").length ∈ prEntryMsgs k a b rest seqs) := by
    intro h
    constructor
    · intro h0
      simp only [prEntryMsgs]
      refine List.mem_append_right _ ?_
      rw [if_pos h, if_pos h0]
      exact List.mem_singleton.mpr rfl
    · intro h0
      simp only [prEntryMsgs]
      refine List.mem_append_right _ ?_
      rw [if_pos h, if_neg h0]
      exact List.mem_singleton.mpr rfl
  have hne : stage3Msgs p tasks r ≠ [] := by
    rcases hviol with h | h | h | h | h | h | h
    · exact List.ne_nil_of_mem (hlift _ (hm1 h))
    · exact List.ne_nil_of_mem (hlift _ (hm2 h))
    · exact List.ne_nil_of_mem (hlift _ (hm3 (Or.inl h)))
    · exact List.ne_nil_of_mem (hlift _ (hm3 (Or.inr h)))
    · exact List.ne_nil_of_mem (hlift _ (hm4 h))
    · rcases (hm5 (Or.inl h)) with ⟨he, ho⟩
      by_cases h0 : ((seqs.lookup k).getD "").length = 0
      · exact List.ne_nil_of_mem (hlift _ (he h0))
      · exact List.ne_nil_of_mem (hlift _ (ho h0))
    · rcases (hm5 (Or.inr h)) with ⟨he, ho⟩
      by_cases h0 : ((seqs.lookup k).getD "").length = 0
      · exact List.ne_nil_of_mem (hlift _ (he h0))
      · exact List.ne_nil_of_mem (hlift _ (ho h0))
  refine ⟨stage3Msgs p tasks r, ?_, rfl, fun h => hlift _ (hm1 h), fun h => hlift _ (hm2 h),
    fun h => hlift _ (hm3 h), fun h => hlift _ (hm4 h), fun h =>
      ⟨fun h0 => hlift _ ((hm5 h).1 h0), fun h0 => hlift _ ((hm5 h).2 h0)⟩⟩
  rw [validate_stage3_characterization p tasks r h1 ht h2 hr hsafe', if_neg hne]

/-- Counterexample to C3 as stated: a truthy non-list range value does not
produce the accumulated 400 the claim promises — `len(value)` raises a
TypeError, aborting validation with a runtime error. -/
theorem c3_counterexample_nonlist_crash :
    validate_request_payload ⟨some (.pstr "point"),
        some [⟨some (.pstr "n"), some (.pstr "accessibility"), some (.pstr "c"),
          some (.pstr "s"), none⟩],
        some [("s1", "ACGT")], some [("s1", PVal.pint 7)], none, none⟩ =
      .error (.runtime "TypeError: object has no len()") ∧
    (∀ m, validate_request_payload ⟨some (.pstr "point"),
        some [⟨some (.pstr "n"), some (.pstr "accessibility"), some (.pstr "c"),
          some (.pstr "s"), none⟩],
        some [("s1", "ACGT")], some [("s1", PVal.pint 7)], none, none⟩ ≠
      .error (.api (BadRequestError m))) := by
  refine ⟨rfl, ?_⟩
  intro m hcontra
  rw [show validate_request_payload ⟨some (.pstr "point"),
        some [⟨some (.pstr "n"), some (.pstr "accessibility"), some (.pstr "c"),
          some (.pstr "s"), none⟩],
        some [("s1", "ACGT")], some [("s1", PVal.pint 7)], none, none⟩ =
      .error (.runtime "TypeError: object has no len()") from rfl] at hcontra
  simp at hcontra

/-- Witness for the amended C3 at the spec example: sequences
`{"s1": "AAAA"}` with range `[0, 5]` fail 400 with the out-of-bounds
message, whose text names maximum valid index 3. -/
theorem c3_amended_range_value_checks_witness :
    (∃ msgs, validate_request_payload ⟨some (.pstr "point"),
        some [⟨some (.pstr "n"), some (.pstr "accessibility"), some (.pstr "c"),
          some (.pstr "s"), none⟩],
        some [("s1", "AAAA")], some [("s1", PVal.plist [.pint 0, .pint 5])], none, none⟩ =
        .error (.api (BadRequestError (.ofList msgs))) ∧
      (BadRequestError (.ofList msgs)).status_code = 400 ∧
      (([] : List PVal) ≠ [] → msg_pr_two_elements "s1" ∈ msgs) ∧
      (([] : List PVal).all PVal.isIntLike = false → msg_pr_integers "s1" ∈ msgs) ∧
      ((0 : Int) < 0 ∨ (5 : Int) < 0 → msg_pr_negative "s1" (.pint 0) (.pint 5) ∈ msgs) ∧
      ((0 : Int) > 5 → msg_pr_start_end "s1" (.pint 0) (.pint 5) ∈ msgs) ∧
      ((0 : Int) ≥ ((((([("s1", "AAAA")] : List (String × String)).lookup "s1").getD "").length : Int)) ∨
       (5 : Int) ≥ ((((([("s1", "AAAA")] : List (String × String)).lookup "s1").getD "").length : Int)) →
        (((([("s1", "AAAA")] : List (String × String)).lookup "s1").getD "").length = 0 →
          msg_pr_empty_seq "s1" ∈ msgs) ∧
        (((([("s1", "AAAA")] : List (String × String)).lookup "s1").getD "").length ≠ 0 →
          msg_pr_out_of_bounds "s1"
            ((([("s1", "AAAA")] : List (String × String)).lookup "s1").getD "").length ∈ msgs))) ∧
    msg_pr_out_of_bounds "s1" 4 =
      "Invalid range for \x27s1\x27: index is out of bounds. The maximum valid index for a sequence of length 4 is 3." :=
  ⟨c3_amended_range_value_checks
    ⟨some (.pstr "point"),
      some [⟨some (.pstr "n"), some (.pstr "accessibility"), some (.pstr "c"),
        some (.pstr "s"), none⟩],
      some [("s1", "AAAA")], some [("s1", PVal.plist [.pint 0, .pint 5])], none, none⟩
    [⟨some (.pstr "n"), some (.pstr "accessibility"), some (.pstr "c"),
      some (.pstr "s"), none⟩]
    (.pstr "point") [("s1", PVal.plist [.pint 0, .pint 5])] [("s1", "AAAA")]
    "s1" 0 5 []
    rfl rfl rfl rfl rfl rfl
    (by
      intro kv hm
      rcases List.mem_singleton.mp hm with rfl
      exact Or.inr ⟨0, 5, [], rfl⟩)
    (List.mem_singleton.mpr rfl)
    (Or.inr (Or.inr (Or.inr (Or.inr (Or.inr (Or.inr (by decide))))))), rfl⟩

end CpG
